import Mathlib

/-!
Verification of the xword crossword engine.

The definitions below are shallow embeddings of the TypeScript sources:
  * `src/app/utils/crosswordHelpers.ts` (ClueIndexer, CompletionChecker, grid helpers)
  * the `.puz` binary parser (`assignClueNumbers`, `parsePuzFile`, …)
  * the navigation handlers of `src/app/components/Crossword.tsx`

JavaScript conventions are modelled explicitly:
  * array reads out of range yield `undefined`, modelled by `Option` (`none`);
  * reading a property of `undefined` throws a `TypeError`, modelled by
    `Except Unit` with `.error ()`;
  * `NaN`/`undefined` numbers flowing through arithmetic are modelled by
    `Option Nat` (`none`), and every comparison against them is `false`,
    matching JS semantics.
-/

namespace Xword

inductive Dir where
  | across
  | down
deriving DecidableEq, Repr

/-- Entries of the `ClueInfo` interface in `types/crossword.ts`. -/
structure ClueInfo where
  number : Nat
  text : String
  direction : Dir
  startRow : Nat
  startCol : Nat
  length : Nat
deriving DecidableEq, Repr

/-- JS 2D read `grid[r][c]`: `none` models `undefined` (missing row or column). -/
def cellAt (grid : List (List String)) (r c : Nat) : Option String :=
  (grid[r]?).bind (fun row => row[c]?)

/-- JS `Map.set` on an association list: overwrite in place when the key is
present (a JS `Map` keeps the original insertion position), append otherwise. -/
def jsMapSet {κ ν : Type} [DecidableEq κ] (m : List (κ × ν)) (k : κ) (v : ν) :
    List (κ × ν) :=
  if m.any (fun p => p.1 = k) then
    m.map (fun p => if p.1 = k then (k, v) else p)
  else m ++ [(k, v)]

/-- JS `Map.get` on an association list. -/
def jsMapGet {κ ν : Type} [DecidableEq κ] (m : List (κ × ν)) (k : κ) : Option ν :=
  (m.find? (fun p => decide (p.1 = k))).map (fun p => p.2)

/-- `Map.values()` in insertion order. -/
def mapValues {κ ν : Type} (m : List (κ × ν)) : List ν :=
  m.map (fun p => p.2)

/-- Keys of the clue map: the TS code uses the strings `` `${n}-across` `` and
`` `${n}-down` ``, which are in bijection with these pairs. -/
abbrev ClueKey := Nat × Dir

/-- ASCII-fold of JS `toUpperCase` (the grids at hand only hold `A–Z`, `a–z`
and `.`). -/
def jsUpperChar (c : Char) : Char :=
  if 'a' ≤ c ∧ c ≤ 'z' then Char.ofNat (c.toNat - 32) else c

def jsUpper (s : String) : String :=
  String.mk (s.toList.map jsUpperChar)

/-- The whitespace class of JS `String.trim` restricted to the characters that
can occur here (ASCII whitespace and NBSP). -/
def jsWhite (c : Char) : Bool :=
  c = ' ' ∨ c = '\t' ∨ c = '\n' ∨ c = '\r' ∨ c = Char.ofNat 11 ∨
    c = Char.ofNat 12 ∨ c = Char.ofNat 160

def jsTrim (s : String) : String :=
  String.mk (((s.toList.dropWhile jsWhite).reverse.dropWhile jsWhite).reverse)

/-- JS truthiness of a string: every string except `""` is truthy. -/
def truthyStr (s : String) : Bool := s ≠ ""

/-- Truthiness of a possibly-`undefined` JS string (`undefined` is falsy). -/
def truthyOpt (s : Option String) : Bool :=
  match s with
  | none => false
  | some s => truthyStr s

/-! ## crosswordHelpers.ts -/

/-- `convertFlatGridTo2D`: row `i` is `flatGrid.slice(i*cols, (i+1)*cols)`. -/
def convertFlatGridTo2D (flatGrid : List String) (rows cols : Nat) :
    List (List String) :=
  (List.range rows).map (fun i => (flatGrid.drop (i * cols)).take cols)

def digitsToNat (ds : List Char) : Nat :=
  ds.foldl (fun a c => a * 10 + (c.toNat - '0'.toNat)) 0

/-- `parseClue`: the regex `^(\d+)\.\s*(.+)$` (no `m`/`s` flags).  It matches
iff the string is digits, then `.`, then optional whitespace, then a nonempty
tail free of line terminators; the captured text is that tail. -/
def parseClue (s : String) : Option (Nat × String) :=
  let cs := s.toList
  let digits := cs.takeWhile Char.isDigit
  if digits = [] then none
  else
    match cs.dropWhile Char.isDigit with
    | '.' :: rest =>
      let body := rest.dropWhile jsWhite
      if body = [] ∨ body.any (fun c => c = '\n' ∨ c = '\r') then none
      else some (digitsToNat digits, String.mk body)
    | _ => none

/-- The across run length scanned by
`for (let c = col; c < size.cols && grid[row][c] !== "."; c++) length++`.
The fuel argument only drives the structural recursion: it always starts at
`cols - c`, which bounds the number of loop steps, so the `0` case fires only
when the loop guard is already false. -/
def runLenAcrossGo (grid : List (List String)) (row cols : Nat) :
    Nat → Nat → Nat
  | _, 0 => 0
  | c, fuel + 1 =>
    if c < cols ∧ ¬ cellAt grid row c = some "." then
      runLenAcrossGo grid row cols (c + 1) fuel + 1
    else 0

def runLenAcross (grid : List (List String)) (row cols c : Nat) : Nat :=
  runLenAcrossGo grid row cols c (cols - c)

/-- The down run length scanned by the analogous loop over rows. -/
def runLenDownGo (grid : List (List String)) (col rows : Nat) :
    Nat → Nat → Nat
  | _, 0 => 0
  | r, fuel + 1 =>
    if r < rows ∧ ¬ cellAt grid r col = some "." then
      runLenDownGo grid col rows (r + 1) fuel + 1
    else 0

def runLenDown (grid : List (List String)) (rows col r : Nat) : Nat :=
  runLenDownGo grid col rows r (rows - r)

/-- `clues.across.find(c => { const parsed = parseClue(c); return parsed && parsed.number === n; })` -/
def findClueByNumber (clueStrings : List String) (n : Nat) : Option String :=
  clueStrings.find? (fun c =>
    match parseClue c with
    | some p => p.1 == n
    | none => false)

/-- The mutable state of `buildClueMapAndNumberGrid`'s scan. -/
structure BuildState where
  numbers : List (List (Option Nat))
  map : List (ClueKey × ClueInfo)
  current : Nat
deriving DecidableEq, Repr

/-- In-place 2D update `numbers[row][col] = v` (in range in every use). -/
def set2D (g : List (List (Option Nat))) (r c : Nat) (v : Option Nat) :
    List (List (Option Nat)) :=
  g.set r (((g[r]?).getD []).set c v)

/-- Read `numbers[r][c]`, flattening the two layers of partiality. -/
def numAt (g : List (List (Option Nat))) (r c : Nat) : Option Nat :=
  ((g[r]?).bind (fun row => row[c]?)).join

/-- The loop body of `buildClueMapAndNumberGrid` for one `(row, col)` cell. -/
def buildStep (grid : List (List String)) (rows cols : Nat)
    (acrossStrings downStrings : List String) (st : BuildState)
    (rc : Nat × Nat) : BuildState :=
  let row := rc.1
  let col := rc.2
  if cellAt grid row col = some "." then st
  else
    let needsNumber : Bool :=
      decide (col = 0) || decide (cellAt grid row (col - 1) = some ".") ||
        decide (row = 0) || decide (cellAt grid (row - 1) col = some ".")
    if needsNumber then
      let numbers := set2D st.numbers row col (some st.current)
      let map1 :=
        if decide (col = 0) || decide (cellAt grid row (col - 1) = some ".") then
          let len := runLenAcross grid row cols col
          if len > 1 then
            match findClueByNumber acrossStrings st.current with
            | some clueStr =>
              match parseClue clueStr with
              | some p =>
                jsMapSet st.map (st.current, Dir.across)
                  ⟨st.current, p.2, Dir.across, row, col, len⟩
              | none => st.map
            | none => st.map
          else st.map
        else st.map
      let map2 :=
        if decide (row = 0) || decide (cellAt grid (row - 1) col = some ".") then
          let len := runLenDown grid rows col row
          if len > 1 then
            match findClueByNumber downStrings st.current with
            | some clueStr =>
              match parseClue clueStr with
              | some p =>
                jsMapSet map1 (st.current, Dir.down)
                  ⟨st.current, p.2, Dir.down, row, col, len⟩
              | none => map1
            | none => map1
          else map1
        else map1
      { numbers := numbers, map := map2, current := st.current + 1 }
    else st

/-- Row-major cell order of the nested `for (row) for (col)` loops. -/
def rowMajor (rows cols : Nat) : List (Nat × Nat) :=
  (List.range rows).flatMap (fun r => (List.range cols).map (fun c => (r, c)))

/-- `buildClueMapAndNumberGrid` from `crosswordHelpers.ts`. -/
def buildClueMapAndNumberGrid (grid : List (List String)) (rows cols : Nat)
    (acrossStrings downStrings : List String) : BuildState :=
  (rowMajor rows cols).foldl (buildStep grid rows cols acrossStrings downStrings)
    { numbers := List.replicate rows (List.replicate cols none)
      map := []
      current := 1 }

/-- `checkPuzzleCompletion` returns `{ isComplete, isCorrect }`. -/
structure CompletionResult where
  isComplete : Bool
  isCorrect : Bool
deriving DecidableEq, Repr

/-- The `allFilled` test of `checkPuzzleCompletion`:
`userGrid.every((row, r) => row.every((cell, c) => grid[r][c] === "." || cell.trim() !== ""))`. -/
def allFilledCheck (userGrid grid : List (List String)) : Bool :=
  userGrid.enum.all (fun rrow =>
    rrow.2.enum.all (fun ccell =>
      cellAt grid rrow.1 ccell.1 == some "." || truthyStr (jsTrim ccell.2)))

/-- The `correct` test of `checkPuzzleCompletion`:
`cell.toUpperCase() === grid[r][c]` on non-black cells. -/
def correctCheck (userGrid grid : List (List String)) : Bool :=
  userGrid.enum.all (fun rrow =>
    rrow.2.enum.all (fun ccell =>
      cellAt grid rrow.1 ccell.1 == some "." ||
        some (jsUpper ccell.2) == cellAt grid rrow.1 ccell.1))

/-- `checkPuzzleCompletion` from `crosswordHelpers.ts`. -/
def checkPuzzleCompletion (userGrid grid : List (List String)) :
    CompletionResult :=
  if !allFilledCheck userGrid grid then ⟨false, false⟩
  else ⟨true, correctCheck userGrid grid⟩

/-! ## The `.puz` parser -/

/-- `isBlackCell` over the flat solution grid (`grid[y*width+x] === "."`;
an out-of-range read gives `undefined`, which is not `"."`). -/
def isBlackCell (grid : List String) (x y width : Nat) : Bool :=
  grid[y * width + x]? == some "."

/-- `cellNeedsAcrossNumber`: left edge or black to the left, and room for a
word of at least two cells. -/
def cellNeedsAcrossNumber (grid : List String) (x y width : Nat) : Bool :=
  (x == 0 || isBlackCell grid (x - 1) y width) &&
    (x + 1 < width && !isBlackCell grid (x + 1) y width)

/-- `cellNeedsDownNumber`: top edge or black above, and room for a word of at
least two cells. -/
def cellNeedsDownNumber (grid : List String) (x y width height : Nat) : Bool :=
  (y == 0 || isBlackCell grid x (y - 1) width) &&
    (y + 1 < height && !isBlackCell grid x (y + 1) width)

/-- The mutable state of `assignClueNumbers`; `cellNumbers` is keyed by the
`(x, y)` pair behind the `` `${x},${y}` `` string key. -/
structure AssignState where
  acrossNumbers : List Nat
  downNumbers : List Nat
  cellNumbers : List ((Nat × Nat) × Nat)
  cur : Nat
deriving DecidableEq, Repr

/-- One `(y, x)` iteration of the `assignClueNumbers` loops. -/
def assignStep (grid : List String) (width height : Nat) (st : AssignState)
    (yx : Nat × Nat) : AssignState :=
  let y := yx.1
  let x := yx.2
  if isBlackCell grid x y width then st
  else
    let a := cellNeedsAcrossNumber grid x y width
    let d := cellNeedsDownNumber grid x y width height
    let st1 :=
      if a then
        { st with
          acrossNumbers := st.acrossNumbers ++ [st.cur]
          cellNumbers := jsMapSet st.cellNumbers (x, y) st.cur }
      else st
    let st2 :=
      if d then
        { st1 with
          downNumbers := st1.downNumbers ++ [st1.cur]
          cellNumbers := jsMapSet st1.cellNumbers (x, y) st1.cur }
      else st1
    if a || d then { st2 with cur := st2.cur + 1 } else st2

/-- `assignClueNumbers` from the `.puz` parser: iterate `y` over `height`
(outer) and `x` over `width` (inner). -/
def assignClueNumbers (grid : List String) (width height : Nat) : AssignState :=
  (rowMajor height width).foldl (assignStep grid width height) ⟨[], [], [], 1⟩

/-- `buffer.slice(s, e)` for a nonnegative start and end (clamped). -/
def jsSliceNat (b : List Nat) (s e : Nat) : List Nat :=
  (b.take e).drop s

/-- `buffer.slice(s, e)` where the end is possibly `NaN`
(`ToIntegerOrInfinity(NaN) = 0`, so the slice is empty). -/
def jsSliceOpt (b : List Nat) (s : Nat) (e : Option Nat) : List Nat :=
  jsSliceNat b s (e.getD 0)

/-- `readShort`: `buffer[o] | (buffer[o+1] << 8)`, where an out-of-range read
is `undefined` and coerces to `0` under the bitwise operators. -/
def readShort (b : List Nat) (o : Nat) : Nat :=
  Nat.lor (b[o]?.getD 0) (Nat.shiftLeft (b[o + 1]?.getD 0) 8)

/-- First index `i ≥ o` at which the null-terminated-string scan stops
(`while (end < buffer.length && buffer[end] !== 0) end++`).  The fuel starts
at `b.length - o`, which bounds the loop steps, so exhaustion coincides with
the guard turning false. -/
def findStrEndGo (b : List Nat) : Nat → Nat → Nat
  | o, 0 => o
  | o, fuel + 1 =>
    if o < b.length ∧ ¬ b[o]? = some 0 then findStrEndGo b (o + 1) fuel
    else o

def findStrEnd (b : List Nat) (o : Nat) : Nat :=
  findStrEndGo b o (b.length - o)

/-- The windows-1252 byte-to-codepoint table: bytes `0x80–0x9F` map to the
listed codepoints, every other byte maps to itself. -/
def win1252Char (b : Nat) : Char :=
  if b == 0x80 then Char.ofNat 0x20AC
  else if b == 0x82 then Char.ofNat 0x201A
  else if b == 0x83 then Char.ofNat 0x0192
  else if b == 0x84 then Char.ofNat 0x201E
  else if b == 0x85 then Char.ofNat 0x2026
  else if b == 0x86 then Char.ofNat 0x2020
  else if b == 0x87 then Char.ofNat 0x2021
  else if b == 0x88 then Char.ofNat 0x02C6
  else if b == 0x89 then Char.ofNat 0x2030
  else if b == 0x8A then Char.ofNat 0x0160
  else if b == 0x8B then Char.ofNat 0x2039
  else if b == 0x8C then Char.ofNat 0x0152
  else if b == 0x8E then Char.ofNat 0x017D
  else if b == 0x91 then Char.ofNat 0x2018
  else if b == 0x92 then Char.ofNat 0x2019
  else if b == 0x93 then Char.ofNat 0x201C
  else if b == 0x94 then Char.ofNat 0x201D
  else if b == 0x95 then Char.ofNat 0x2022
  else if b == 0x96 then Char.ofNat 0x2013
  else if b == 0x97 then Char.ofNat 0x2014
  else if b == 0x98 then Char.ofNat 0x02DC
  else if b == 0x99 then Char.ofNat 0x2122
  else if b == 0x9A then Char.ofNat 0x0161
  else if b == 0x9B then Char.ofNat 0x203A
  else if b == 0x9C then Char.ofNat 0x0153
  else if b == 0x9E then Char.ofNat 0x017E
  else if b == 0x9F then Char.ofNat 0x0178
  else Char.ofNat b

def decodeWin1252 (bs : List Nat) : String :=
  String.mk (bs.map win1252Char)

/-- `readNullTerminatedString`.  A `NaN` offset (`none`) skips the scan loop
(`NaN < length` is false), slices `(NaN, NaN) = (0, 0)` giving `""`, and
propagates `NaN` as the next offset. -/
def readNT (b : List Nat) (offset : Option Nat) : String × Option Nat :=
  match offset with
  | none => ("", none)
  | some o =>
    let e := findStrEnd b o
    (decodeWin1252 (jsSliceNat b o e), some (e + 1))

/-- `String.fromCharCode` truncates its argument to 16 bits. -/
def fromCharCode16 (n : Nat) : Char :=
  Char.ofNat (n % 65536)

/-- Strip `/<[^>]*>/g`: each `<` up to the next `>` is removed; a `<` with no
later `>` can never be part of a match and survives together with the rest.
The fuel always starts at the list length, which bounds the recursion depth,
so the exhaustion case is unreachable. -/
def stripTagsGo : Nat → List Char → List Char
  | _, [] => []
  | 0, cs => cs
  | fuel + 1, c :: rest =>
    if c = '<' then
      match rest.dropWhile (fun ch => decide (ch ≠ '>')) with
      | [] => c :: rest
      | _ :: after => stripTagsGo fuel after
    else c :: stripTagsGo fuel rest

def stripTags (cs : List Char) : List Char :=
  stripTagsGo cs.length cs

/-- Global replacement of a fixed literal pattern, scanning left to right
without overlap (`String.replace(new RegExp(literal, "g"), rep)`).  The fuel
starts at the list length and bounds the recursion depth. -/
def replaceAllGo (pat rep : List Char) : Nat → List Char → List Char
  | _, [] => []
  | 0, cs => cs
  | fuel + 1, c :: rest =>
    if pat ≠ [] ∧ pat.isPrefixOf (c :: rest) then
      rep ++ replaceAllGo pat rep fuel ((c :: rest).drop pat.length)
    else c :: replaceAllGo pat rep fuel rest

def replaceAllL (pat rep cs : List Char) : List Char :=
  replaceAllGo pat rep cs.length cs

/-- Decode `/&#(\d+);/g`: `String.fromCharCode(parseInt(num, 10))`.  On a
failed match the regex engine resumes scanning one position later, i.e. at the
`#`.  The fuel starts at the list length and bounds the recursion depth. -/
def decDecGo : Nat → List Char → List Char
  | _, [] => []
  | 0, cs => cs
  | fuel + 1, '&' :: '#' :: rest2 =>
    let ds := rest2.takeWhile Char.isDigit
    match rest2.dropWhile Char.isDigit with
    | ';' :: after =>
      if ds = [] then '&' :: decDecGo fuel ('#' :: rest2)
      else fromCharCode16 (digitsToNat ds) :: decDecGo fuel after
    | _ => '&' :: decDecGo fuel ('#' :: rest2)
  | fuel + 1, c :: rest => c :: decDecGo fuel rest

def decDecimalEntities (cs : List Char) : List Char :=
  decDecGo cs.length cs

def hexDigitVal (c : Char) : Nat :=
  if '0' ≤ c ∧ c ≤ '9' then c.toNat - '0'.toNat
  else if 'a' ≤ c ∧ c ≤ 'f' then c.toNat - 'a'.toNat + 10
  else if 'A' ≤ c ∧ c ≤ 'F' then c.toNat - 'A'.toNat + 10
  else 0

def isHexDigit (c : Char) : Bool :=
  ('0' ≤ c ∧ c ≤ '9') ∨ ('a' ≤ c ∧ c ≤ 'f') ∨ ('A' ≤ c ∧ c ≤ 'F')

def hexToNat (ds : List Char) : Nat :=
  ds.foldl (fun a c => a * 16 + hexDigitVal c) 0

/-- Decode `/&#x([0-9A-Fa-f]+);/g` (lowercase `x` only).  The fuel starts at
the list length and bounds the recursion depth. -/
def decHexGo : Nat → List Char → List Char
  | _, [] => []
  | 0, cs => cs
  | fuel + 1, '&' :: '#' :: 'x' :: rest2 =>
    let ds := rest2.takeWhile isHexDigit
    match rest2.dropWhile isHexDigit with
    | ';' :: after =>
      if ds = [] then '&' :: decHexGo fuel ('#' :: 'x' :: rest2)
      else fromCharCode16 (hexToNat ds) :: decHexGo fuel after
    | _ => '&' :: decHexGo fuel ('#' :: 'x' :: rest2)
  | fuel + 1, c :: rest => c :: decHexGo fuel rest

def decHexEntities (cs : List Char) : List Char :=
  decHexGo cs.length cs

/-- The named-entity table, in the insertion order of the source object. -/
def entityTable : List (List Char × List Char) :=
  [("&amp;".toList, ['&']),
   ("&lt;".toList, ['<']),
   ("&gt;".toList, ['>']),
   ("&quot;".toList, [Char.ofNat 34]),
   ("&apos;".toList, [Char.ofNat 39]),
   ("&nbsp;".toList, [' ']),
   ("&#39;".toList, [Char.ofNat 39]),
   ("&#34;".toList, [Char.ofNat 34]),
   ("&mdash;".toList, [Char.ofNat 0x2014]),
   ("&ndash;".toList, [Char.ofNat 0x2013]),
   ("&hellip;".toList, [Char.ofNat 0x2026]),
   ("&bull;".toList, [Char.ofNat 0x2022]),
   ("&middot;".toList, [Char.ofNat 0xB7]),
   ("&lsquo;".toList, [Char.ofNat 39]),
   ("&rsquo;".toList, [Char.ofNat 39]),
   ("&ldquo;".toList, [Char.ofNat 34]),
   ("&rdquo;".toList, [Char.ofNat 34])]

/-- `cleanHtmlFromClue`: strip tags, apply the entity table in order, then
decode decimal and hexadecimal numeric entities. -/
def cleanHtmlFromClue (s : String) : String :=
  let cs := stripTags s.toList
  let cs := entityTable.foldl (fun acc pr => replaceAllL pr.1 pr.2 acc) cs
  let cs := decDecimalEntities cs
  let cs := decHexEntities cs
  String.mk cs

/-- The decoded result shape (`PuzzleData` in the parser).  `rows`/`cols` hold
the raw width/height bytes, which are `undefined` (`none`) when the buffer is
too short to contain them. -/
structure PuzzleData where
  author : String
  title : String
  rows : Option Nat
  cols : Option Nat
  acrossClues : List String
  downClues : List String
  grid : List String
  copyright : Option String
  notes : Option String
deriving DecidableEq, Repr

inductive PuzError where
  | badMagic
  | badDims (w h : Option Nat)
deriving DecidableEq, Repr

instance {ε α : Type} [DecidableEq ε] [DecidableEq α] :
    DecidableEq (Except ε α) := fun a b =>
  match a, b with
  | .ok x, .ok y =>
    if h : x = y then isTrue (by rw [h]) else isFalse (by simp [h])
  | .error e, .error f =>
    if h : e = f then isTrue (by rw [h]) else isFalse (by simp [h])
  | .ok _, .error _ => isFalse (by simp)
  | .error _, .ok _ => isFalse (by simp)

def magicChars : List Char := "ACROSS&DOWN".toList

/-- The magic test: build `String.fromCharCode(...buffer.slice(0x02, 0x0e))`
and check `startsWith("ACROSS&DOWN")` — only 11 of the 12 sliced bytes are
inspected. -/
def magicOk (b : List Nat) : Bool :=
  magicChars.isPrefixOf ((jsSliceNat b 0x02 0x0e).map Char.ofNat)

/-- A JS comparison against a possibly-`undefined` number: `undefined < k` and
`undefined > k` are both false. -/
def jsLtNat (x : Option Nat) (k : Nat) : Bool :=
  match x with
  | none => false
  | some v => v < k

def jsGtNat (x : Option Nat) (k : Nat) : Bool :=
  match x with
  | none => false
  | some v => v > k

/-- The dimension validation
`width < 1 || height < 1 || width > 50 || height > 50`. -/
def jsDimBad (w h : Option Nat) : Bool :=
  jsLtNat w 1 || jsLtNat h 1 || jsGtNat w 50 || jsGtNat h 50

/-- `width * height`, propagating `undefined`/`NaN`. -/
def optMul (a b : Option Nat) : Option Nat :=
  match a, b with
  | some x, some y => some (x * y)
  | _, _ => none

/-- Read the clue strings: `numClues` null-terminated strings, each cleaned. -/
def readClues (b : List Nat) : Nat → Option Nat → List String × Option Nat
  | 0, off => ([], off)
  | n + 1, off =>
    let r := readNT b off
    let rest := readClues b n r.2
    (cleanHtmlFromClue r.1 :: rest.1, rest.2)

/-- The number printed by `` `${n}. ` `` when `n` may be `Infinity`. -/
def numToStr (n : Option Nat) : String :=
  match n with
  | some v => toString v
  | none => "Infinity"

/-- `Infinity`-aware `<=` used by the merge loop (`none` is `Infinity`). -/
def leInf (a bv : Option Nat) : Bool :=
  match a, bv with
  | none, none => true
  | none, some _ => false
  | some _, none => true
  | some x, some y => x ≤ y

/-- The merge loop that deals clue strings to across/down by ascending number
(across first on ties, `Infinity` sentinels at list ends). -/
def mergeClueLoop : List String → List Nat → List Nat →
    List String × List String
  | [], _, _ => ([], [])
  | s :: rest, aN, dN =>
    if leInf aN.head? dN.head? then
      let r := mergeClueLoop rest aN.tail dN
      (String.append (numToStr aN.head?) (String.append ". " s) :: r.1, r.2)
    else
      let r := mergeClueLoop rest aN dN.tail
      (r.1, String.append (numToStr dN.head?) (String.append ". " s) :: r.2)

/-- The string fields read from the byte stream after the grids. -/
structure RawFields where
  title : String
  author : String
  copyright : String
  clueStrings : List String
  notes : String
deriving DecidableEq, Repr

def numCluesOf (b : List Nat) : Nat :=
  readShort b 0x2e

/-- `0x34 + gridSize + gridSize`; `NaN` when the dimension bytes are missing. -/
def stringsOffsetOf (b : List Nat) : Option Nat :=
  (optMul b[0x2c]? b[0x2d]?).map (fun g => 0x34 + g + g)

/-- Title, author, copyright, the clue strings and the optional notes, in
stream order.  Notes are read only `if (offset < buffer.length)` — false for a
`NaN` offset. -/
def readRawFields (b : List Nat) : RawFields :=
  let t := readNT b (stringsOffsetOf b)
  let a := readNT b t.2
  let c := readNT b a.2
  let cl := readClues b (numCluesOf b) c.2
  let notes :=
    match cl.2 with
    | some o => if o < b.length then (readNT b (some o)).1 else ""
    | none => ""
  ⟨t.1, a.1, c.1, cl.1, notes⟩

/-- The solution block: `buffer.slice(0x34, 0x34 + gridSize)` mapped through
`String.fromCharCode` (empty when `gridSize` is `NaN`). -/
def solutionOf (b : List Nat) : List String :=
  (jsSliceOpt b 0x34 ((optMul b[0x2c]? b[0x2d]?).map (fun g => 0x34 + g))).map
    (fun byte => String.mk [Char.ofNat byte])

/-- The clue-number assignment run inside `parsePuzFile`: with an `undefined`
width or height the loops run zero iterations. -/
def assignOf (b : List Nat) : AssignState :=
  match b[0x2c]?, b[0x2d]? with
  | some w, some h => assignClueNumbers (solutionOf b) w h
  | _, _ => ⟨[], [], [], 1⟩

/-- Everything `parsePuzFile` does after the header checks. -/
def parseBody (b : List Nat) : PuzzleData :=
  let raw := readRawFields b
  let asg := assignOf b
  let merged := mergeClueLoop raw.clueStrings asg.acrossNumbers asg.downNumbers
  { title := if truthyStr raw.title then raw.title else "Untitled Puzzle"
    author := if truthyStr raw.author then raw.author else "Unknown"
    rows := b[0x2d]?
    cols := b[0x2c]?
    acrossClues := merged.1
    downClues := merged.2
    grid := solutionOf b
    copyright := if truthyStr raw.copyright then some raw.copyright else none
    notes := if truthyStr raw.notes then some raw.notes else none }

/-- `parsePuzFile` over an in-memory byte list.  Throwing is modelled by
`Except.error`; everything past the magic and dimension checks is total. -/
def parsePuzFile (b : List Nat) : Except PuzError PuzzleData :=
  if !magicOk b then .error .badMagic
  else if jsDimBad b[0x2c]? b[0x2d]? then .error (.badDims b[0x2c]? b[0x2d]?)
  else .ok (parseBody b)

/-! ## The navigation engine (`Crossword.tsx` handlers)

Coordinates are `Int` because the handlers decrement them and compare against
`0` (`prevCol--`, `prevRow >= 0`).  `grid[r]` with a missing row is
`undefined`, and a subsequent `[c]` access throws — modelled by
`Except Unit` with `.error ()` standing for the `TypeError`. -/

/-- The immutable surroundings of the handlers: the puzzle grid, its `size`,
the clue map, and the three interaction flags. -/
structure Env where
  grid : List (List String)
  rows : Nat
  cols : Nat
  clueMap : List (ClueKey × ClueInfo)
  isCorrect : Bool
  isTimerRunning : Bool
  isPaused : Bool
deriving DecidableEq, Repr

/-- The session-mutable React state touched by the handlers. -/
structure Session where
  userGrid : List (List String)
  selectedCell : Option (Int × Int)
  direction : Dir
deriving DecidableEq, Repr

def flipDir : Dir → Dir
  | Dir.across => Dir.down
  | Dir.down => Dir.across

/-- `grid[r]`: `none` is `undefined` (negative or too-large row). -/
def rowAtI (g : List (List String)) (r : Int) : Option (List String) :=
  if r < 0 then none else g[r.toNat]?

/-- `row[c]` on an existing row. -/
def entryAtI (row : List String) (c : Int) : Option String :=
  if c < 0 then none else row[c.toNat]?

/-- `grid[r][c]` when an `undefined` row would *not* be dereferenced further
(both failures collapse to `undefined`). -/
def cellAtI (g : List (List String)) (r c : Int) : Option String :=
  (rowAtI g r).bind (fun row => entryAtI row c)

/-- The guard `(isCorrect && !isTimerRunning) || isPaused` shared by the
guarded handlers. -/
def interactionOff (env : Env) : Bool :=
  (env.isCorrect && !env.isTimerRunning) || env.isPaused

/-- `findClueForCell` from `crosswordHelpers.ts`, iterating `clueMap.values()`
in insertion order. -/
def findClueForCell (m : List (ClueKey × ClueInfo)) (row col : Int)
    (dir : Dir) : Option ClueInfo :=
  (mapValues m).find? (fun clue =>
    clue.direction == dir &&
      (match dir with
       | Dir.across =>
         (clue.startRow : Int) == row &&
           decide ((clue.startCol : Int) ≤ col) &&
           decide (col < (clue.startCol : Int) + (clue.length : Int))
       | Dir.down =>
         (clue.startCol : Int) == col &&
           decide ((clue.startRow : Int) ≤ row) &&
           decide (row < (clue.startRow : Int) + (clue.length : Int))))

/-- `getWordCells` for a non-null clue (the TS `null` case yields `[]` and is
handled at the call sites). -/
def getWordCells (clue : ClueInfo) (dir : Dir) : List (Nat × Nat) :=
  match dir with
  | Dir.across =>
    (List.range clue.length).map (fun k => (clue.startRow, clue.startCol + k))
  | Dir.down =>
    (List.range clue.length).map (fun k => (clue.startRow + k, clue.startCol))

/-- `getCurrentClue`: the clue of the selected cell in the current direction. -/
def getCurrentClue (env : Env) (s : Session) : Option ClueInfo :=
  s.selectedCell.bind (fun p => findClueForCell env.clueMap p.1 p.2 s.direction)

/-- JS `Array.findIndex`: `-1` when no element matches. -/
def jsFindIndex {α : Type} (l : List α) (p : α → Bool) : Int :=
  match l.findIdx? p with
  | some i => (i : Int)
  | none => -1

/-- `cells.find(cell => !userGrid[cell.row][cell.col])`. -/
def firstEmptyCellOf (ug : List (List String)) (clue : ClueInfo) (dir : Dir) :
    Option (Nat × Nat) :=
  (getWordCells clue dir).find? (fun p => !truthyOpt (cellAt ug p.1 p.2))

/-- The `while (attempts < allClues.length)` scan of `goToNextClue`; the fuel
is the remaining number of attempts. -/
def nextClueScan (ug : List (List String)) (all : List ClueInfo) (dir : Dir) :
    Nat → Nat → Option (Nat × Nat)
  | _, 0 => none
  | idx, fuel + 1 =>
    match all[idx]? with
    | none => none
    | some clue =>
      match firstEmptyCellOf ug clue dir with
      | some p => some p
      | none => nextClueScan ug all dir ((idx + 1) % all.length) fuel

/-- The analogous backward scan of `goToPrevClue`. -/
def prevClueScan (ug : List (List String)) (all : List ClueInfo) (dir : Dir) :
    Nat → Nat → Option (Nat × Nat)
  | _, 0 => none
  | idx, fuel + 1 =>
    match all[idx]? with
    | none => none
    | some clue =>
      match firstEmptyCellOf ug clue dir with
      | some p => some p
      | none => prevClueScan ug all dir ((idx + all.length - 1) % all.length) fuel

/-- `goToNextClue`.  With an empty filtered clue list (impossible while a
current clue exists) the fallback `allClues[(i+1) % 0].startRow` dereferences
`undefined`, hence the `.error`. -/
def goToNextClue (env : Env) (s : Session) : Except Unit Session :=
  match getCurrentClue env s with
  | none => .ok s
  | some cur =>
    let all := (mapValues env.clueMap).filter (fun c => c.direction == s.direction)
    let ci := jsFindIndex all (fun c => c.number == cur.number)
    if all.length = 0 then .error ()
    else
      let start := ((ci + 1) % (all.length : Int)).toNat
      match nextClueScan s.userGrid all s.direction start all.length with
      | some p => .ok { s with selectedCell := some ((p.1 : Int), (p.2 : Int)) }
      | none =>
        match all[start]? with
        | some nextClue =>
          let tgt : Int × Int := ((nextClue.startRow : Int), (nextClue.startCol : Int))
          .ok { s with selectedCell := some tgt }
        | none => .error ()

/-- `goToPrevClue`. -/
def goToPrevClue (env : Env) (s : Session) : Except Unit Session :=
  match getCurrentClue env s with
  | none => .ok s
  | some cur =>
    let all := (mapValues env.clueMap).filter (fun c => c.direction == s.direction)
    let ci := jsFindIndex all (fun c => c.number == cur.number)
    if all.length = 0 then .error ()
    else
      let start := ((ci - 1 + all.length) % (all.length : Int)).toNat
      match prevClueScan s.userGrid all s.direction start all.length with
      | some p => .ok { s with selectedCell := some ((p.1 : Int), (p.2 : Int)) }
      | none =>
        match all[start]? with
        | some prevClue =>
          let tgt : Int × Int := ((prevClue.startRow : Int), (prevClue.startCol : Int))
          .ok { s with selectedCell := some tgt }
        | none => .error ()

/-- `handleCellClick`.  `grid[row][col]` is evaluated before any flag, so a
missing row throws even while paused. -/
def handleCellClick (env : Env) (s : Session) (row col : Int) :
    Except Unit Session :=
  match rowAtI env.grid row with
  | none => .error ()
  | some rowL =>
    if entryAtI rowL col == some "." || interactionOff env then .ok s
    else
      let same :=
        match s.selectedCell with
        | some p => p.1 == row && p.2 == col
        | none => false
      if same then .ok { s with direction := flipDir s.direction }
      else
        let hasAcross := (findClueForCell env.clueMap row col Dir.across).isSome
        let hasDown := (findClueForCell env.clueMap row col Dir.down).isSome
        let dir' :=
          if hasAcross && !hasDown then Dir.across
          else if hasDown && !hasAcross then Dir.down
          else if hasAcross then Dir.across
          else s.direction
        .ok { s with selectedCell := some (row, col), direction := dir' }

/-- `newGrid[row][col] = v` after the row-wise copy.  A negative column sets a
non-index property, invisible to every later array read that matters here; a
column past the end extends the row, the holes reading back as `undefined`,
which is falsy exactly like the `""` used to model them. -/
def setRow (row : List String) (c : Int) (v : String) : List String :=
  if c < 0 then row
  else if c.toNat < row.length then row.set c.toNat v
  else row ++ List.replicate (c.toNat - row.length) "" ++ [v]

def setCellI (ug : List (List String)) (r c : Int) (v : String) :
    List (List String) :=
  if r < 0 then ug else ug.set r.toNat (setRow ((ug[r.toNat]?).getD []) c v)

/-- `value.slice(-1).toUpperCase()`. -/
def lastCharUpper (v : String) : String :=
  jsUpper (String.mk (v.toList.drop (v.toList.length - 1)))

/-- The `while (nextCol < start+len && newGrid[nextRow][nextCol]) nextCol++`
skip of already-filled cells (and its down-direction analogue).  The fuel
starts at `(bound - v).toNat`, which bounds the loop steps. -/
def skipFilledGo (ug : List (List String)) (fixed : Int) (acrossDir : Bool)
    (bound : Int) : Int → Nat → Int
  | v, 0 => v
  | v, fuel + 1 =>
    if v < bound ∧
        truthyOpt (if acrossDir then cellAtI ug fixed v else cellAtI ug v fixed) =
          true then
      skipFilledGo ug fixed acrossDir bound (v + 1) fuel
    else v

def skipFilled (ug : List (List String)) (fixed : Int) (acrossDir : Bool)
    (bound v : Int) : Int :=
  skipFilledGo ug fixed acrossDir bound v (bound - v).toNat

/-- `handleInputChange`.  `goToNextClue` is invoked from a closure over the
*previous* `userGrid` state value — React state updates are not visible to the
running handler — so its filled-word scan sees the grid before this letter,
while the letter itself is retained in the final state. -/
def handleInputChange (env : Env) (s : Session) (row col : Int)
    (value : String) : Except Unit Session :=
  if interactionOff env then .ok s
  else
    let newValue := lastCharUpper value
    match rowAtI s.userGrid row with
    | none => .error ()
    | some _ =>
      let newGrid := setCellI s.userGrid row col newValue
      let sMid := { s with userGrid := newGrid }
      if truthyStr newValue && s.selectedCell.isSome then
        match getCurrentClue env s with
        | none => .ok sMid
        | some currentClue =>
          let isAcross := s.direction == Dir.across
          let bound : Int :=
            if isAcross then (currentClue.startCol : Int) + (currentClue.length : Int)
            else (currentClue.startRow : Int) + (currentClue.length : Int)
          let fixed := if isAcross then row else col
          let start := (if isAcross then col else row) + 1
          let next := skipFilled newGrid fixed isAcross bound start
          let nextRow := if isAcross then row else next
          let nextCol := if isAcross then next else col
          if bound ≤ next then
            match goToNextClue env s with
            | .ok s2 => .ok { s2 with userGrid := newGrid }
            | .error e => .error e
          else
            if decide (nextRow < (env.rows : Int)) &&
                decide (nextCol < (env.cols : Int)) then
              match rowAtI env.grid nextRow with
              | none => .error ()
              | some gRow =>
                if entryAtI gRow nextCol == some "." then .ok sMid
                else .ok { sMid with selectedCell := some (nextRow, nextCol) }
            else .ok sMid
      else .ok sMid

/-- The `findNextCell` loop of `crosswordHelpers.ts`.  The source has no fuel;
every call passes a unit delta, so `rows + cols + 1` steps always cover the
in-bounds walk. -/
def findNextCellLoop (g : List (List String)) (rows cols : Nat) (dr dc : Int) :
    Int → Int → Nat → Except Unit (Option (Int × Int))
  | _, _, 0 => .ok none
  | r, c, fuel + 1 =>
    if decide (0 ≤ r) && decide (r < (rows : Int)) && decide (0 ≤ c) &&
        decide (c < (cols : Int)) then
      match rowAtI g r with
      | none => .error ()
      | some rowL =>
        if entryAtI rowL c == some "." then
          findNextCellLoop g rows cols dr dc (r + dr) (c + dc) fuel
        else .ok (some (r, c))
    else .ok none

def findNextCell (g : List (List String)) (row col dr dc : Int)
    (rows cols : Nat) : Except Unit (Option (Int × Int)) :=
  findNextCellLoop g rows cols dr dc (row + dr) (col + dc) (rows + cols + 1)

/-- The key events distinguished by `handleKeyDown`. -/
inductive KeyEvt where
  | space
  | tab (shift : Bool)
  | backspace
  | arrowLeft
  | arrowRight
  | arrowUp
  | arrowDown
  | other
deriving DecidableEq, Repr

/-- `handleKeyDown`. -/
def handleKeyDown (env : Env) (s : Session) (k : KeyEvt) (row col : Int) :
    Except Unit Session :=
  if interactionOff env then .ok s
  else
    match k with
    | .space => .ok { s with direction := flipDir s.direction }
    | .tab shift => if shift then goToPrevClue env s else goToNextClue env s
    | .backspace =>
      match rowAtI s.userGrid row with
      | none => .error ()
      | some rowL =>
        if truthyOpt (entryAtI rowL col) then .ok s
        else
          match getCurrentClue env s with
          | none => .ok s
          | some currentClue =>
            let isAtWordStart :=
              (s.direction == Dir.across && col == (currentClue.startCol : Int)) ||
                (s.direction == Dir.down && row == (currentClue.startRow : Int))
            if isAtWordStart then
              let all := (mapValues env.clueMap).filter
                (fun c => c.direction == s.direction)
              let ci := jsFindIndex all (fun c => c.number == currentClue.number)
              if all.length = 0 then .error ()
              else
                let prevIndex := ((ci - 1 + all.length) % (all.length : Int)).toNat
                match all[prevIndex]? with
                | none => .error ()
                | some prevClue =>
                  let lastRow :=
                    if s.direction == Dir.across then (prevClue.startRow : Int)
                    else (prevClue.startRow : Int) + (prevClue.length : Int) - 1
                  let lastCol :=
                    if s.direction == Dir.across then
                      (prevClue.startCol : Int) + (prevClue.length : Int) - 1
                    else (prevClue.startCol : Int)
                  .ok { s with selectedCell := some (lastRow, lastCol) }
            else
              let prevRow := if s.direction == Dir.across then row else row - 1
              let prevCol := if s.direction == Dir.across then col - 1 else col
              if decide (0 ≤ prevRow) && decide (0 ≤ prevCol) then
                match rowAtI env.grid prevRow with
                | none => .error ()
                | some gRow =>
                  if entryAtI gRow prevCol == some "." then .ok s
                  else
                    match rowAtI s.userGrid prevRow with
                    | none => .error ()
                    | some _ =>
                      .ok { s with
                        selectedCell := some (prevRow, prevCol)
                        userGrid := setCellI s.userGrid prevRow prevCol "" }
              else .ok s
    | .arrowLeft =>
      match findNextCell env.grid row col 0 (-1) env.rows env.cols with
      | .error e => .error e
      | .ok none => .ok s
      | .ok (some p) => .ok { s with selectedCell := some p }
    | .arrowRight =>
      match findNextCell env.grid row col 0 1 env.rows env.cols with
      | .error e => .error e
      | .ok none => .ok s
      | .ok (some p) => .ok { s with selectedCell := some p }
    | .arrowUp =>
      match findNextCell env.grid row col (-1) 0 env.rows env.cols with
      | .error e => .error e
      | .ok none => .ok s
      | .ok (some p) => .ok { s with selectedCell := some p }
    | .arrowDown =>
      match findNextCell env.grid row col 1 0 env.rows env.cols with
      | .error e => .error e
      | .ok none => .ok s
      | .ok (some p) => .ok { s with selectedCell := some p }
    | .other => .ok s

/-- `handleKeyboardClick` (the on-screen keyboard). -/
def handleKeyboardClick (env : Env) (s : Session) (key : String) :
    Except Unit Session :=
  if s.selectedCell.isNone || interactionOff env then .ok s
  else
    match s.selectedCell with
    | none => .ok s
    | some p =>
      if key == "BACK" then
        match rowAtI s.userGrid p.1 with
        | none => .error ()
        | some rowL =>
          if truthyOpt (entryAtI rowL p.2) then
            .ok { s with userGrid := setCellI s.userGrid p.1 p.2 "" }
          else
            let prevRow := if s.direction == Dir.across then p.1 else p.1 - 1
            let prevCol := if s.direction == Dir.across then p.2 - 1 else p.2
            if decide (0 ≤ prevRow) && decide (0 ≤ prevCol) then
              match rowAtI env.grid prevRow with
              | none => .error ()
              | some gRow =>
                if entryAtI gRow prevCol == some "." then .ok s
                else
                  match rowAtI s.userGrid prevRow with
                  | none => .error ()
                  | some _ =>
                    .ok { s with
                      selectedCell := some (prevRow, prevCol)
                      userGrid := setCellI s.userGrid prevRow prevCol "" }
            else .ok s
      else handleInputChange env s p.1 p.2 key

/-- `handleClueClick`: unconditionally select the clue's start — note the
absence of any pause or completion guard. -/
def handleClueClick (s : Session) (clue : ClueInfo) : Session :=
  { s with
    selectedCell := some ((clue.startRow : Int), (clue.startCol : Int))
    direction := clue.direction }

/-- `toggleDirection`: unconditionally flip the direction — note the absence
of any pause or completion guard. -/
def toggleDirection (s : Session) : Session :=
  { s with direction := flipDir s.direction }

/-- One externally triggered engine operation. -/
inductive Op where
  | cellClick (row col : Int)
  | input (row col : Int) (value : String)
  | key (k : KeyEvt) (row col : Int)
  | kb (key : String)
  | clueClick (clue : ClueInfo)
  | toggleDir
  | nextClue
  | prevClue

/-- Dispatch one operation to its handler. -/
def step (env : Env) (s : Session) : Op → Except Unit Session
  | .cellClick r c => handleCellClick env s r c
  | .input r c v => handleInputChange env s r c v
  | .key k r c => handleKeyDown env s k r c
  | .kb key => handleKeyboardClick env s key
  | .clueClick clue => .ok (handleClueClick s clue)
  | .toggleDir => .ok (toggleDirection s)
  | .nextClue => goToNextClue env s
  | .prevClue => goToPrevClue env s

/-- Run a list of operations, stopping at the first thrown error. -/
def runOps (env : Env) : Session → List Op → Except Unit Session
  | s, [] => .ok s
  | s, op :: ops =>
    match step env s op with
    | .ok s' => runOps env s' ops
    | .error e => .error e

/-! ## The §3 grid invariant and concrete fixtures -/

/-- A single uppercase letter `A`–`Z`. -/
def upperLetterStr (s : String) : Bool :=
  match s.toList with
  | [c] => 'A' ≤ c ∧ c ≤ 'Z'
  | _ => false

/-- The §3 grid invariant: rectangular `rows × cols`, each cell `.` or an
uppercase letter. -/
def GridInv (rows cols : Nat) (g : List (List String)) : Prop :=
  g.length = rows ∧ (∀ row ∈ g, row.length = cols) ∧
    ∀ row ∈ g, ∀ cell ∈ row, cell = "." ∨ upperLetterStr cell = true

instance (rows cols : Nat) (g : List (List String)) :
    Decidable (GridInv rows cols g) := by
  unfold GridInv
  infer_instance

/-- The spec's 3×3 example grid, row-major. -/
def catDogFlat : List String := ["C", "A", "T", ".", ".", ".", "D", "O", "G"]

def catDogGrid : List (List String) := convertFlatGridTo2D catDogFlat 3 3

def catDogBuild : BuildState :=
  buildClueMapAndNumberGrid catDogGrid 3 3 ["1. Feline", "7. Canine"] []

/-- Truncated buffer: two pad bytes, the 11 magic bytes, one garbage byte —
long enough for the magic, far too short for the `0x34`-byte header. -/
def magicBytes : List Nat := magicChars.map Char.toNat

def truncBuf : List Nat := [0, 0] ++ magicBytes ++ [13]

/-- A magic-carrying buffer whose byte at `0x0D` is junk (`99`). -/
def junk13Buf : List Nat := [0, 0] ++ magicBytes ++ [99]

/-- A well-formed 54-byte buffer: 1×1 grid `A`, zero clues, and the string
section entirely absent (every string reads back empty). -/
def tinyBuf : List Nat :=
  [0, 0] ++ magicBytes ++ List.replicate 31 0 ++ [1, 1, 0, 0] ++
    List.replicate 4 0 ++ [65, 0]

/-! ## Claim C2 -/

/-- C2 (counterexample): on the spec's 3×3 grid with across clues
`["1. Feline", "7. Canine"]`, `buildClueMapAndNumberGrid` assigns number 4,
not 7, to cell (2,0): the numbering counter runs over every boundary cell of
the grid, so the claim is false as stated. -/
theorem C2_counterexample :
    numAt catDogBuild.numbers 2 0 = some 4 ∧
      ¬ numAt catDogBuild.numbers 2 0 = some 7 := by
  decide

/-- C2 (amended): on the 3×3 grid `["C","A","T",".",".",".","D","O","G"]`
with across clues `["1. Feline","7. Canine"]` and down clues `[]`, the
ClueIndexer assigns number 1 to cell (0,0) and number 4 to cell (2,0); the
clue string `7. Canine` matches no grid-derived slot, so the clue map holds
only the `1-across` entry. -/
theorem C2_amended :
    numAt catDogBuild.numbers 0 0 = some 1 ∧
      numAt catDogBuild.numbers 2 0 = some 4 ∧
      mapValues catDogBuild.map =
        [⟨1, "Feline", Dir.across, 0, 0, 3⟩] := by
  decide

/-! ## Claim C3 -/

/-- C3 (counterexample): a 14-byte buffer — room for the magic marker but not
for the header through `0x34`, the grids, or any string — parses
*successfully*: `parsePuzFile` returns a document rather than failing.  In JS
the out-of-range header reads yield `undefined`, every comparison against
`undefined` is false, and the `NaN` offsets silently produce empty slices and
strings. -/
theorem C3_counterexample :
    truncBuf.length = 14 ∧ (parsePuzFile truncBuf).isOk = true := by
  decide

/-- C3 (amended): `parsePuzFile` fails exactly on a bad magic marker or on an
explicitly out-of-range dimension byte; any other buffer — including every
truncated one that passes those two checks — yields a (possibly degenerate)
`PuzzleDocument`, never an error. -/
theorem C3_amended (b : List Nat) :
    (parsePuzFile b).isOk =
      (magicOk b && !jsDimBad b[0x2c]? b[0x2d]?) := by
  unfold parsePuzFile
  by_cases hm : magicOk b
  · simp only [hm]
    by_cases hd : jsDimBad b[0x2c]? b[0x2d]?
    · simp [hd, Except.isOk, Except.toBool]
    · simp [hd, Except.isOk, Except.toBool]
  · simp [hm, Except.isOk, Except.toBool]

/-! ## Claim C9 -/

theorem take11_of_slice (b : List Nat) :
    (jsSliceNat b 2 14).take 11 = jsSliceNat b 2 13 := by
  unfold jsSliceNat
  rw [List.take_drop, List.take_take]
  norm_num

/-- C9: the magic test builds a 12-character string from bytes
`[0x02, 0x0E)` but checks only `startsWith("ACROSS&DOWN")` — 11 characters —
so the byte at `0x0D` is never inspected: any buffer of length ≥ 14 whose
bytes `0x02`–`0x0C` spell `ACROSS&DOWN` escapes the bad-magic error. -/
theorem C9_magic_ignores_byte13 (b : List Nat) (hlen : 14 ≤ b.length)
    (hmagic : jsSliceNat b 2 13 = magicBytes) :
    parsePuzFile b ≠ .error PuzError.badMagic := by
  have hmap : ((jsSliceNat b 2 14).map Char.ofNat).take 11 = magicChars := by
    rw [← List.map_take, take11_of_slice, hmagic]
    decide
  have hpre : magicChars.isPrefixOf ((jsSliceNat b 2 14).map Char.ofNat) := by
    rw [List.isPrefixOf_iff_prefix, ← hmap]
    exact List.take_prefix _ _
  have hok : magicOk b = true := hpre
  unfold parsePuzFile
  rw [hok]
  by_cases hd : jsDimBad b[0x2c]? b[0x2d]?
  · simp [hd]
  · simp [hd]

/-- C9 (witness): a concrete 14-byte buffer carrying the magic with junk at
offset `0x0D` is not rejected for its magic. -/
theorem C9_witness :
    14 ≤ junk13Buf.length ∧ jsSliceNat junk13Buf 2 13 = magicBytes ∧
      parsePuzFile junk13Buf ≠ .error PuzError.badMagic :=
  ⟨by decide, by decide,
    C9_magic_ignores_byte13 junk13Buf (by decide) (by decide)⟩

/-! ## Claim C10 -/

/-- C10: an empty decoded title becomes `Untitled Puzzle`, an empty author
becomes `Unknown`, and an empty copyright or notes string is dropped from the
document (the optional field is absent) rather than kept as `""`. -/
theorem C10_empty_field_defaults (b : List Nat) (d : PuzzleData)
    (hok : parsePuzFile b = .ok d) :
    ((readRawFields b).title = "" → d.title = "Untitled Puzzle") ∧
      ((readRawFields b).author = "" → d.author = "Unknown") ∧
      ((readRawFields b).copyright = "" → d.copyright = none) ∧
      ((readRawFields b).notes = "" → d.notes = none) := by
  have hd : d = parseBody b := by
    unfold parsePuzFile at hok
    by_cases hm : magicOk b
    · simp only [hm] at hok
      by_cases hdim : jsDimBad b[0x2c]? b[0x2d]?
      · simp [hdim] at hok
      · simp [hdim] at hok
        exact hok.symm
    · simp [hm] at hok
  subst hd
  refine ⟨fun h => ?_, fun h => ?_, fun h => ?_, fun h => ?_⟩ <;>
    simp [parseBody, h, truthyStr]

/-- C10 (witness): on the concrete 54-byte buffer all four raw strings decode
empty and the document carries the two defaults and two absent fields. -/
theorem C10_witness :
    parsePuzFile tinyBuf = .ok (parseBody tinyBuf) ∧
      (readRawFields tinyBuf).title = "" ∧
      (readRawFields tinyBuf).author = "" ∧
      (readRawFields tinyBuf).copyright = "" ∧
      (readRawFields tinyBuf).notes = "" ∧
      (parseBody tinyBuf).title = "Untitled Puzzle" ∧
      (parseBody tinyBuf).author = "Unknown" ∧
      (parseBody tinyBuf).copyright = none ∧
      (parseBody tinyBuf).notes = none := by
  have hok : parsePuzFile tinyBuf = .ok (parseBody tinyBuf) := by decide
  have h := C10_empty_field_defaults tinyBuf (parseBody tinyBuf) hok
  exact ⟨hok, by decide, by decide, by decide, by decide,
    h.1 (by decide), h.2.1 (by decide), h.2.2.1 (by decide),
    h.2.2.2 (by decide)⟩

/-! ## Claim C6 -/

theorem enum_all2_iff (ug : List (List String)) (f : Nat → Nat → String → Bool) :
    (ug.enum.all (fun rrow => rrow.2.enum.all (fun c => f rrow.1 c.1 c.2)) = true) ↔
      ∀ r rowL, ug[r]? = some rowL → ∀ c cell, rowL[c]? = some cell →
        f r c cell = true := by
  rw [List.all_eq_true]
  constructor
  · intro h r rowL hr c cell hc
    have h2 := h (r, rowL) ((List.mk_mem_enum_iff_getElem? ..).mpr hr)
    rw [List.all_eq_true] at h2
    exact h2 (c, cell) ((List.mk_mem_enum_iff_getElem? ..).mpr hc)
  · intro h p hp
    obtain ⟨r, rowL⟩ := p
    rw [List.all_eq_true]
    intro q hq
    obtain ⟨c, cell⟩ := q
    exact h r rowL ((List.mk_mem_enum_iff_getElem? ..).mp hp) c cell
      ((List.mk_mem_enum_iff_getElem? ..).mp hq)

theorem cellAt_some {g : List (List String)} {r c : Nat} {cell : String} :
    cellAt g r c = some cell ↔
      ∃ rowL, g[r]? = some rowL ∧ rowL[c]? = some cell := by
  unfold cellAt
  cases h : g[r]? <;> simp [h]

/-- At least one playable (non-black) cell. -/
def hasPlayableB (g : List (List String)) : Bool :=
  g.any (fun row => row.any (fun cell => cell ≠ "."))

/-- Every user entry is the empty string. -/
def allEmptyB (ug : List (List String)) : Bool :=
  ug.all (fun row => row.all (fun cell => cell == ""))

/-- The user grid has exactly the shape of the puzzle grid. -/
def sameShapeB (ug g : List (List String)) : Bool :=
  ug.length == g.length &&
    (ug.zip g).all (fun p => p.1.length == p.2.length)

/-- Every playable entry equals the solution letter up to letter case. -/
def matchesSolutionB (ug g : List (List String)) : Bool :=
  ug.enum.all (fun rrow => rrow.2.enum.all (fun c =>
    match cellAt g rrow.1 c.1 with
    | some gcell => gcell == "." || jsUpper c.2 == gcell
    | none => true))

/-- Every playable entry is filled (nonempty after trimming). -/
def allPlayableFilledB (ug g : List (List String)) : Bool :=
  ug.enum.all (fun rrow => rrow.2.enum.all (fun c =>
    match cellAt g rrow.1 c.1 with
    | some gcell => gcell == "." || truthyStr (jsTrim c.2)
    | none => true))

/-- Some playable entry disagrees with the solution letter (up to case). -/
def someWrongB (ug g : List (List String)) : Bool :=
  ug.enum.any (fun rrow => rrow.2.enum.any (fun c =>
    match cellAt g rrow.1 c.1 with
    | some gcell => !(gcell == ".") && !(jsUpper c.2 == gcell)
    | none => false))

theorem shape_row_of_g {ug g : List (List String)} (hs : sameShapeB ug g = true)
    {r : Nat} {rowG : List String} (hr : g[r]? = some rowG) :
    ∃ rowU, ug[r]? = some rowU ∧ rowU.length = rowG.length := by
  unfold sameShapeB at hs
  rw [Bool.and_eq_true, beq_iff_eq, List.all_eq_true] at hs
  obtain ⟨hlen, hall⟩ := hs
  have hrlen : r < g.length := by
    rw [List.getElem?_eq_some] at hr
    exact hr.1
  have hulen : r < ug.length := by omega
  have hu : ug[r]? = some ug[r] := List.getElem?_eq_some.mpr ⟨hulen, rfl⟩
  have hz : (ug.zip g)[r]? = some (ug[r], rowG) := by
    rw [List.getElem?_zip_eq_some]
    exact ⟨hu, hr⟩
  have hq := hall _ (List.getElem?_mem hz)
  rw [beq_iff_eq] at hq
  exact ⟨ug[r], hu, hq⟩

theorem shape_row_of_u {ug g : List (List String)} (hs : sameShapeB ug g = true)
    {r : Nat} {rowU : List String} (hu : ug[r]? = some rowU) :
    ∃ rowG, g[r]? = some rowG ∧ rowU.length = rowG.length := by
  unfold sameShapeB at hs
  rw [Bool.and_eq_true, beq_iff_eq, List.all_eq_true] at hs
  obtain ⟨hlen, hall⟩ := hs
  have hulen : r < ug.length := by
    rw [List.getElem?_eq_some] at hu
    exact hu.1
  have hglen : r < g.length := by omega
  have hg : g[r]? = some g[r] := List.getElem?_eq_some.mpr ⟨hglen, rfl⟩
  have hz : (ug.zip g)[r]? = some (rowU, g[r]) := by
    rw [List.getElem?_zip_eq_some]
    exact ⟨hu, hg⟩
  have hq := hall _ (List.getElem?_mem hz)
  rw [beq_iff_eq] at hq
  exact ⟨g[r], hg, hq⟩

/-- The uppercase image of a user entry being a single `A`–`Z` letter forces
the entry itself to be one non-whitespace character, so its trim is
nonempty. -/
theorem trim_nonempty_of_upper_letter {cell gcell : String}
    (hu : jsUpper cell = gcell) (hl : upperLetterStr gcell = true) :
    truthyStr (jsTrim cell) = true := by
  have hdata : cell.toList.map jsUpperChar = gcell.toList := by
    have : (jsUpper cell).toList = gcell.toList := by rw [hu]
    simpa [jsUpper] using this
  unfold upperLetterStr at hl
  rcases hC : gcell.toList with _ | ⟨C, _ | ⟨D, t⟩⟩
  · rw [hC] at hl
    simp at hl
  case cons.nil =>
    rw [hC] at hl hdata
    rcases hc0 : cell.toList with _ | ⟨c0, _ | ⟨c1, t1⟩⟩
    · rw [hc0] at hdata
      simp at hdata
    case cons.nil =>
      rw [hc0] at hdata
      simp at hdata
      have hbounds : ('A' ≤ C ∧ C ≤ 'Z') := by
        revert hl
        simp
      have hnw : jsWhite c0 = false := by
        by_contra hww
        rw [Bool.not_eq_false] at hww
        unfold jsWhite at hww
        rw [decide_eq_true_iff] at hww
        have hcc : jsUpperChar c0 = c0 := by
          rcases hww with h | h | h | h | h | h | h <;> subst h <;> decide
        rw [hcc] at hdata
        subst hdata
        rcases hww with h | h | h | h | h | h | h <;> subst h <;>
          revert hbounds <;> decide
      have hcell : cell = String.mk [c0] := by
        cases cell
        simp only [String.toList] at hc0
        simp [hc0]
      rw [hcell]
      unfold jsTrim truthyStr
      simp [String.toList, List.dropWhile, hnw, String.ext_iff]
    case cons.cons =>
      rw [hc0] at hdata
      simp at hdata
  case cons.cons =>
    rw [hC] at hl
    simp at hl

/-- Projections of `checkPuzzleCompletion` through its two sub-checks. -/
theorem checkPuzzleCompletion_proj (ug g : List (List String)) :
    (checkPuzzleCompletion ug g).isComplete = allFilledCheck ug g ∧
      (checkPuzzleCompletion ug g).isCorrect =
        (allFilledCheck ug g && correctCheck ug g) := by
  unfold checkPuzzleCompletion
  by_cases h : allFilledCheck ug g <;> simp [h]

/-- C6 (counterexample): the all-black 1×1 grid satisfies the §3 grid
invariant, yet `checkPuzzleCompletion` on the all-empty user grid reports
`complete = true` — the claimed `complete = false` fails without at least one
playable cell. -/
theorem C6_counterexample :
    GridInv 1 1 [["."]] ∧ allEmptyB [[""]] = true ∧
      (checkPuzzleCompletion [[""]] [["."]]).isComplete = true := by
  refine ⟨by decide, by decide, by decide⟩

/-- C6 (amended): for every §3-invariant grid and equally shaped user grid:
an all-empty user grid gives `complete = false` *provided the grid has at
least one playable cell*; a user grid matching the solution up to letter case
gives `correct = true`; a fully filled user grid with at least one wrong
entry gives `complete = true` and `correct = false`. -/
theorem C6_completion_checker (rows cols : Nat) (g ug : List (List String))
    (hg : GridInv rows cols g) (hs : sameShapeB ug g = true) :
    (hasPlayableB g = true → allEmptyB ug = true →
        (checkPuzzleCompletion ug g).isComplete = false) ∧
      (matchesSolutionB ug g = true →
        (checkPuzzleCompletion ug g).isCorrect = true) ∧
      (allPlayableFilledB ug g = true → someWrongB ug g = true →
        (checkPuzzleCompletion ug g).isComplete = true ∧
          (checkPuzzleCompletion ug g).isCorrect = false) := by
  have hAFtrue : allPlayableFilledB ug g = true → allFilledCheck ug g = true := by
    intro hafb
    have hafb2 := (enum_all2_iff ug (fun r c cell =>
      match cellAt g r c with
      | some gcell => gcell == "." || truthyStr (jsTrim cell)
      | none => true)).mp hafb
    refine (enum_all2_iff ug (fun r c cell =>
      cellAt g r c == some "." || truthyStr (jsTrim cell))).mpr ?_
    intro r rowU hu c cell hc
    have hp := hafb2 r rowU hu c cell hc
    obtain ⟨rowG, hgr, hlen⟩ := shape_row_of_u hs hu
    have hclt : c < rowU.length := by
      rw [List.getElem?_eq_some] at hc
      exact hc.1
    have hgc : rowG[c]? = some rowG[c] :=
      List.getElem?_eq_some.mpr ⟨by omega, rfl⟩
    have hcg : cellAt g r c = some rowG[c] := cellAt_some.mpr ⟨rowG, hgr, hgc⟩
    rw [hcg] at hp ⊢
    simpa using hp
  refine ⟨?_, ?_, ?_⟩
  · -- all-empty and at least one playable cell: not complete
    intro hplay hempty
    unfold hasPlayableB at hplay
    rw [List.any_eq_true] at hplay
    obtain ⟨rowG, hrowmem, hcell⟩ := hplay
    rw [List.any_eq_true] at hcell
    obtain ⟨gcell, hcmem, hne⟩ := hcell
    rw [decide_eq_true_iff] at hne
    obtain ⟨r, hr⟩ := List.mem_iff_getElem?.mp hrowmem
    obtain ⟨c, hc⟩ := List.mem_iff_getElem?.mp hcmem
    obtain ⟨rowU, hu, hlen⟩ := shape_row_of_g hs hr
    have hclt : c < rowG.length := by
      rw [List.getElem?_eq_some] at hc
      exact hc.1
    have hucell : rowU[c]? = some rowU[c] :=
      List.getElem?_eq_some.mpr ⟨by omega, rfl⟩
    have hueq : rowU[c] = "" := by
      unfold allEmptyB at hempty
      rw [List.all_eq_true] at hempty
      have h1 := hempty rowU (List.getElem?_mem hu)
      rw [List.all_eq_true] at h1
      have h2 := h1 _ (List.getElem?_mem hucell)
      rwa [beq_iff_eq] at h2
    have hAF : allFilledCheck ug g = false := by
      by_contra hAFn
      rw [Bool.not_eq_false] at hAFn
      have hAFn2 := (enum_all2_iff ug (fun r c cell =>
        cellAt g r c == some "." || truthyStr (jsTrim cell))).mp hAFn
      have hx := hAFn2 r rowU hu c rowU[c] hucell
      have hcg : cellAt g r c = some gcell := cellAt_some.mpr ⟨rowG, hr, hc⟩
      rw [hueq, hcg] at hx
      simp [truthyStr, jsTrim, hne] at hx
    rw [(checkPuzzleCompletion_proj ug g).1, hAF]
  · -- entries matching the solution up to case: correct
    intro hmatch
    have hmatch2 := (enum_all2_iff ug (fun r c cell =>
      match cellAt g r c with
      | some gcell => gcell == "." || jsUpper cell == gcell
      | none => true)).mp hmatch
    have hAF : allFilledCheck ug g = true := by
      refine (enum_all2_iff ug (fun r c cell =>
        cellAt g r c == some "." || truthyStr (jsTrim cell))).mpr ?_
      intro r rowU hu c cell hc
      obtain ⟨rowG, hgr, hlen⟩ := shape_row_of_u hs hu
      have hclt : c < rowU.length := by
        rw [List.getElem?_eq_some] at hc
        exact hc.1
      have hgc : rowG[c]? = some rowG[c] :=
        List.getElem?_eq_some.mpr ⟨by omega, rfl⟩
      have hcg : cellAt g r c = some rowG[c] := cellAt_some.mpr ⟨rowG, hgr, hgc⟩
      simp only [hcg]
      by_cases hdot : rowG[c] = "."
      · simp [hdot]
      · have hm := hmatch2 r rowU hu c cell hc
        rw [hcg] at hm
        simp [hdot] at hm
        have hlet : upperLetterStr rowG[c] = true := by
          rcases hg.2.2 rowG (List.getElem?_mem hgr) rowG[c]
              (List.getElem?_mem hgc) with h | h
          · exact absurd h hdot
          · exact h
        have := trim_nonempty_of_upper_letter hm hlet
        simp [this]
    have hCR : correctCheck ug g = true := by
      refine (enum_all2_iff ug (fun r c cell =>
        cellAt g r c == some "." || some (jsUpper cell) == cellAt g r c)).mpr ?_
      intro r rowU hu c cell hc
      obtain ⟨rowG, hgr, hlen⟩ := shape_row_of_u hs hu
      have hclt : c < rowU.length := by
        rw [List.getElem?_eq_some] at hc
        exact hc.1
      have hgc : rowG[c]? = some rowG[c] :=
        List.getElem?_eq_some.mpr ⟨by omega, rfl⟩
      have hcg : cellAt g r c = some rowG[c] := cellAt_some.mpr ⟨rowG, hgr, hgc⟩
      simp only [hcg]
      by_cases hdot : rowG[c] = "."
      · simp [hdot]
      · have hm := hmatch2 r rowU hu c cell hc
        rw [hcg] at hm
        simp [hdot] at hm
        simp [hm]
    rw [(checkPuzzleCompletion_proj ug g).2, hAF, hCR]
    rfl
  · -- fully filled but somewhere wrong: complete and not correct
    intro hfill hwrong
    have hAF := hAFtrue hfill
    have hCR : correctCheck ug g = false := by
      unfold someWrongB at hwrong
      rw [List.any_eq_true] at hwrong
      obtain ⟨⟨r, rowU⟩, hpmem, hrow⟩ := hwrong
      rw [List.any_eq_true] at hrow
      obtain ⟨⟨c, cell⟩, hcmem, hcw⟩ := hrow
      have hu : ug[r]? = some rowU := (List.mk_mem_enum_iff_getElem? ..).mp hpmem
      have hc : rowU[c]? = some cell := (List.mk_mem_enum_iff_getElem? ..).mp hcmem
      cases hcg : cellAt g r c with
      | none =>
        rw [hcg] at hcw
        simp at hcw
      | some gcell =>
        rw [hcg] at hcw
        rw [Bool.and_eq_true, Bool.not_eq_true', Bool.not_eq_true',
          beq_eq_false_iff_ne, beq_eq_false_iff_ne] at hcw
        by_contra hCRn
        rw [Bool.not_eq_false] at hCRn
        have hCRn2 := (enum_all2_iff ug (fun r c cell =>
          cellAt g r c == some "." || some (jsUpper cell) == cellAt g r c)).mp hCRn
        have hx := hCRn2 r rowU hu c cell hc
        rw [hcg] at hx
        simp [hcw.1, hcw.2] at hx
    constructor
    · rw [(checkPuzzleCompletion_proj ug g).1, hAF]
    · rw [(checkPuzzleCompletion_proj ug g).2, hAF, hCR]
      rfl

/-- C6 (witness): concrete instances of the three amended branches on the
1×1 grid `A`. -/
theorem C6_witness :
    (checkPuzzleCompletion [[""]] [["A"]]).isComplete = false ∧
      (checkPuzzleCompletion [["a"]] [["A"]]).isCorrect = true ∧
      (checkPuzzleCompletion [["B"]] [["A"]]).isComplete = true ∧
      (checkPuzzleCompletion [["B"]] [["A"]]).isCorrect = false :=
  ⟨(C6_completion_checker 1 1 [["A"]] [[""]] (by decide) (by decide)).1
      (by decide) (by decide),
    (C6_completion_checker 1 1 [["A"]] [["a"]] (by decide) (by decide)).2.1
      (by decide),
    ((C6_completion_checker 1 1 [["A"]] [["B"]] (by decide) (by decide)).2.2
      (by decide) (by decide)).1,
    ((C6_completion_checker 1 1 [["A"]] [["B"]] (by decide) (by decide)).2.2
      (by decide) (by decide)).2⟩

/-! ## Claim C5 — navigation well-formedness machinery -/

/-- The cursor invariant: in bounds and not on a black cell. -/
def ValidSel (env : Env) (p : Int × Int) : Prop :=
  0 ≤ p.1 ∧ p.1 < (env.rows : Int) ∧ 0 ≤ p.2 ∧ p.2 < (env.cols : Int) ∧
    ¬ cellAtI env.grid p.1 p.2 = some "."

instance (env : Env) (p : Int × Int) : Decidable (ValidSel env p) := by
  unfold ValidSel
  infer_instance

/-- A clue entry whose whole word lies in bounds on playable cells. -/
def ClueWF (env : Env) (clue : ClueInfo) : Prop :=
  1 ≤ clue.length ∧
    match clue.direction with
    | Dir.across =>
      clue.startRow < env.rows ∧ clue.startCol + clue.length ≤ env.cols ∧
        ∀ k < clue.length,
          ¬ cellAt env.grid clue.startRow (clue.startCol + k) = some "."
    | Dir.down =>
      clue.startCol < env.cols ∧ clue.startRow + clue.length ≤ env.rows ∧
        ∀ k < clue.length,
          ¬ cellAt env.grid (clue.startRow + k) clue.startCol = some "."

instance (env : Env) (clue : ClueInfo) : Decidable (ClueWF env clue) := by
  unfold ClueWF
  cases clue.direction <;> infer_instance

/-- Environment well-formedness: the grid has the advertised shape and every
clue-map entry is a well-formed word. -/
def EnvWF (env : Env) : Prop :=
  env.grid.length = env.rows ∧ (∀ row ∈ env.grid, row.length = env.cols) ∧
    ∀ clue ∈ mapValues env.clueMap, ClueWF env clue

instance (env : Env) : Decidable (EnvWF env) := by
  unfold EnvWF
  infer_instance

/-- Session well-formedness: the user grid has one row per grid row and the
selected cell, when set, satisfies the cursor invariant. -/
def SessionWF (env : Env) (s : Session) : Prop :=
  s.userGrid.length = env.rows ∧
    match s.selectedCell with
    | none => True
    | some p => ValidSel env p

instance (env : Env) (s : Session) : Decidable (SessionWF env s) := by
  unfold SessionWF
  cases s.selectedCell <;> infer_instance

/-- Well-formed operation arguments: coordinates delivered by the UI lie in
the grid, and clicked clues come from the clue map. -/
def OpWF (env : Env) : Op → Prop
  | .cellClick r c => 0 ≤ r ∧ r < (env.rows : Int) ∧ 0 ≤ c ∧ c < (env.cols : Int)
  | .input r c _ => 0 ≤ r ∧ r < (env.rows : Int) ∧ 0 ≤ c ∧ c < (env.cols : Int)
  | .key _ r c => 0 ≤ r ∧ r < (env.rows : Int) ∧ 0 ≤ c ∧ c < (env.cols : Int)
  | .kb _ => True
  | .clueClick clue => clue ∈ mapValues env.clueMap
  | .toggleDir => True
  | .nextClue => True
  | .prevClue => True

theorem cellAtI_natCast (g : List (List String)) (a b : Nat) :
    cellAtI g (a : Int) (b : Int) = cellAt g a b := by
  have ha : ¬ ((a : Int) < 0) := by omega
  have hb : ¬ ((b : Int) < 0) := by omega
  simp [cellAtI, rowAtI, entryAtI, cellAt, ha, hb]

theorem rowAtI_some {env : Env} (henv : EnvWF env) {r : Int}
    (h0 : 0 ≤ r) (hlt : r < (env.rows : Int)) :
    ∃ rowL, rowAtI env.grid r = some rowL ∧ rowL.length = env.cols := by
  have hl : r.toNat < env.grid.length := by
    have := henv.1
    omega
  refine ⟨env.grid[r.toNat], ?_, ?_⟩
  · unfold rowAtI
    rw [if_neg (by omega)]
    exact List.getElem?_eq_some.mpr ⟨hl, rfl⟩
  · exact henv.2.1 _ (List.getElem_mem hl)

theorem setCellI_length (ug : List (List String)) (r c : Int) (v : String) :
    (setCellI ug r c v).length = ug.length := by
  unfold setCellI
  split
  · rfl
  · simp

theorem findClueForCell_mem {m : List (ClueKey × ClueInfo)} {row col : Int}
    {dir : Dir} {clue : ClueInfo}
    (h : findClueForCell m row col dir = some clue) :
    clue ∈ mapValues m ∧ clue.direction = dir := by
  unfold findClueForCell at h
  refine ⟨List.mem_of_find?_eq_some h, ?_⟩
  have hp := List.find?_some h
  rw [Bool.and_eq_true] at hp
  have := hp.1
  rwa [beq_iff_eq] at this

/-- Cells of a well-formed clue word are in bounds and playable. -/
theorem getWordCells_valid {env : Env} {clue : ClueInfo}
    (hwf : ClueWF env clue) {p : Nat × Nat}
    (hp : p ∈ getWordCells clue clue.direction) :
    p.1 < env.rows ∧ p.2 < env.cols ∧
      ¬ cellAt env.grid p.1 p.2 = some "." := by
  obtain ⟨hlen, hdir⟩ := hwf
  cases hd : clue.direction with
  | across =>
    rw [hd] at hdir hp
    unfold getWordCells at hp
    simp only [List.mem_map, List.mem_range] at hp
    obtain ⟨k, hk, hpe⟩ := hp
    obtain ⟨hr, hc, hcells⟩ := hdir
    subst hpe
    exact ⟨hr, by omega, hcells k hk⟩
  | down =>
    rw [hd] at hdir hp
    unfold getWordCells at hp
    simp only [List.mem_map, List.mem_range] at hp
    obtain ⟨k, hk, hpe⟩ := hp
    obtain ⟨hr, hc, hcells⟩ := hdir
    subst hpe
    exact ⟨by omega, hr, hcells k hk⟩

theorem valid_of_wordCell {env : Env} {clue : ClueInfo}
    (hwf : ClueWF env clue) {p : Nat × Nat}
    (hp : p ∈ getWordCells clue clue.direction) :
    ValidSel env ((p.1 : Int), (p.2 : Int)) := by
  have h := getWordCells_valid hwf hp
  unfold ValidSel
  rw [cellAtI_natCast]
  refine ⟨by omega, by omega, by omega, by omega, h.2.2⟩

/-- The start cell of a well-formed clue is valid. -/
theorem clueStart_valid {env : Env} {clue : ClueInfo} (hwf : ClueWF env clue) :
    ValidSel env ((clue.startRow : Int), (clue.startCol : Int)) := by
  have hlen := hwf.1
  have hstart : (clue.startRow, clue.startCol) ∈ getWordCells clue clue.direction := by
    unfold getWordCells
    cases clue.direction <;>
      · simp only [List.mem_map, List.mem_range]
        exact ⟨0, by omega, by simp⟩
  exact valid_of_wordCell hwf hstart

theorem emod_toNat_lt (a : Int) {n : Nat} (hn : n ≠ 0) :
    (a % (n : Int)).toNat < n := by
  have hpos : (0 : Int) < (n : Int) := by
    omega
  have h1 : a % (n : Int) < (n : Int) := Int.emod_lt_of_pos a hpos
  have h2 : 0 ≤ a % (n : Int) := Int.emod_nonneg a (by omega)
  omega

theorem jsFindIndex_ge {α : Type} (l : List α) (p : α → Bool) :
    -1 ≤ jsFindIndex l p := by
  unfold jsFindIndex
  cases h : l.findIdx? p with
  | none => simp [h]
  | some i =>
    simp [h]
    omega

theorem mem_filtered {m : List (ClueKey × ClueInfo)} {dir : Dir}
    {clue : ClueInfo}
    (h : clue ∈ (mapValues m).filter (fun c => c.direction == dir)) :
    clue ∈ mapValues m ∧ clue.direction = dir := by
  rw [List.mem_filter] at h
  refine ⟨h.1, ?_⟩
  have := h.2
  rwa [beq_iff_eq] at this

theorem getCurrentClue_mem {env : Env} {s : Session} {cur : ClueInfo}
    (h : getCurrentClue env s = some cur) :
    cur ∈ mapValues env.clueMap ∧ cur.direction = s.direction := by
  unfold getCurrentClue at h
  cases hsel : s.selectedCell with
  | none =>
    rw [hsel] at h
    simp at h
  | some p =>
    rw [hsel] at h
    simp only [Option.some_bind] at h
    exact findClueForCell_mem h

theorem firstEmptyCellOf_mem {ug : List (List String)} {clue : ClueInfo}
    {dir : Dir} {p : Nat × Nat}
    (h : firstEmptyCellOf ug clue dir = some p) :
    p ∈ getWordCells clue dir :=
  List.mem_of_find?_eq_some h

theorem nextClueScan_valid {env : Env} (henv : EnvWF env) {dir : Dir}
    {all : List ClueInfo}
    (hall : ∀ clue ∈ all, clue ∈ mapValues env.clueMap ∧ clue.direction = dir)
    (ug : List (List String)) :
    ∀ fuel idx p, nextClueScan ug all dir idx fuel = some p →
      ValidSel env ((p.1 : Int), (p.2 : Int)) := by
  intro fuel
  induction fuel with
  | zero =>
    intro idx p h
    simp [nextClueScan] at h
  | succ n ih =>
    intro idx p h
    unfold nextClueScan at h
    cases hidx : all[idx]? with
    | none =>
      simp only [hidx] at h
      exact absurd h (by simp)
    | some clue =>
      simp only [hidx] at h
      cases hfe : firstEmptyCellOf ug clue dir with
      | some q =>
        simp only [hfe] at h
        obtain ⟨hmv, hdir⟩ := hall clue (List.getElem?_mem hidx)
        have hwf := henv.2.2 clue hmv
        have hq := firstEmptyCellOf_mem hfe
        rw [← hdir] at hq
        have hqp : q = p := by injection h
        rw [← hqp]
        exact valid_of_wordCell hwf hq
      | none =>
        simp only [hfe] at h
        exact ih _ p h

theorem prevClueScan_valid {env : Env} (henv : EnvWF env) {dir : Dir}
    {all : List ClueInfo}
    (hall : ∀ clue ∈ all, clue ∈ mapValues env.clueMap ∧ clue.direction = dir)
    (ug : List (List String)) :
    ∀ fuel idx p, prevClueScan ug all dir idx fuel = some p →
      ValidSel env ((p.1 : Int), (p.2 : Int)) := by
  intro fuel
  induction fuel with
  | zero =>
    intro idx p h
    simp [prevClueScan] at h
  | succ n ih =>
    intro idx p h
    unfold prevClueScan at h
    cases hidx : all[idx]? with
    | none =>
      simp only [hidx] at h
      exact absurd h (by simp)
    | some clue =>
      simp only [hidx] at h
      cases hfe : firstEmptyCellOf ug clue dir with
      | some q =>
        simp only [hfe] at h
        obtain ⟨hmv, hdir⟩ := hall clue (List.getElem?_mem hidx)
        have hwf := henv.2.2 clue hmv
        have hq := firstEmptyCellOf_mem hfe
        rw [← hdir] at hq
        have hqp : q = p := by injection h
        rw [← hqp]
        exact valid_of_wordCell hwf hq
      | none =>
        simp only [hfe] at h
        exact ih _ p h

theorem goToNextClue_wf {env : Env} (henv : EnvWF env) {s : Session}
    (hs : SessionWF env s) :
    ∃ s', goToNextClue env s = .ok s' ∧ SessionWF env s' ∧
      s'.userGrid = s.userGrid ∧ s'.direction = s.direction := by
  unfold goToNextClue
  cases hcc : getCurrentClue env s with
  | none => exact ⟨s, rfl, hs, rfl, rfl⟩
  | some cur =>
    have hcur := getCurrentClue_mem hcc
    have hmem_all : cur ∈ (mapValues env.clueMap).filter
        (fun c => c.direction == s.direction) := by
      rw [List.mem_filter]
      exact ⟨hcur.1, by simp [hcur.2]⟩
    have hne : ((mapValues env.clueMap).filter
        (fun c => c.direction == s.direction)).length ≠ 0 := by
      intro h0
      rw [List.length_eq_zero] at h0
      rw [h0] at hmem_all
      simp at hmem_all
    have hallf : ∀ clue ∈ (mapValues env.clueMap).filter
        (fun c => c.direction == s.direction),
        clue ∈ mapValues env.clueMap ∧ clue.direction = s.direction :=
      fun clue hc => mem_filtered hc
    dsimp only
    rw [if_neg hne]
    have hcige := jsFindIndex_ge ((mapValues env.clueMap).filter
      (fun c => c.direction == s.direction)) (fun c => c.number == cur.number)
    have hstart := emod_toNat_lt
      (jsFindIndex ((mapValues env.clueMap).filter
        (fun c => c.direction == s.direction)) (fun c => c.number == cur.number) + 1)
      (n := ((mapValues env.clueMap).filter
        (fun c => c.direction == s.direction)).length) hne
    cases hscan : nextClueScan s.userGrid
        ((mapValues env.clueMap).filter (fun c => c.direction == s.direction))
        s.direction
        ((jsFindIndex ((mapValues env.clueMap).filter
          (fun c => c.direction == s.direction))
          (fun c => c.number == cur.number) + 1) %
            (((mapValues env.clueMap).filter
              (fun c => c.direction == s.direction)).length : Int)).toNat
        ((mapValues env.clueMap).filter
          (fun c => c.direction == s.direction)).length with
    | some p =>
      simp only [hscan]
      refine ⟨_, rfl, ⟨hs.1, ?_⟩, rfl, rfl⟩
      exact nextClueScan_valid henv hallf s.userGrid _ _ _ hscan
    | none =>
      simp only [hscan]
      have hget : ((mapValues env.clueMap).filter
          (fun c => c.direction == s.direction))[((jsFindIndex
            ((mapValues env.clueMap).filter (fun c => c.direction == s.direction))
            (fun c => c.number == cur.number) + 1) %
              (((mapValues env.clueMap).filter
                (fun c => c.direction == s.direction)).length : Int)).toNat]? =
          some (((mapValues env.clueMap).filter
            (fun c => c.direction == s.direction)).get ⟨((jsFindIndex
              ((mapValues env.clueMap).filter (fun c => c.direction == s.direction))
              (fun c => c.number == cur.number) + 1) %
                (((mapValues env.clueMap).filter
                  (fun c => c.direction == s.direction)).length : Int)).toNat,
              hstart⟩) :=
        List.getElem?_eq_some.mpr ⟨hstart, rfl⟩
      rw [hget]
      refine ⟨_, rfl, ⟨hs.1, ?_⟩, rfl, rfl⟩
      have hmem := List.getElem_mem hstart
      obtain ⟨hmv, _⟩ := hallf _ hmem
      exact clueStart_valid (henv.2.2 _ hmv)

theorem goToPrevClue_wf {env : Env} (henv : EnvWF env) {s : Session}
    (hs : SessionWF env s) :
    ∃ s', goToPrevClue env s = .ok s' ∧ SessionWF env s' ∧
      s'.userGrid = s.userGrid ∧ s'.direction = s.direction := by
  unfold goToPrevClue
  cases hcc : getCurrentClue env s with
  | none => exact ⟨s, rfl, hs, rfl, rfl⟩
  | some cur =>
    have hcur := getCurrentClue_mem hcc
    have hmem_all : cur ∈ (mapValues env.clueMap).filter
        (fun c => c.direction == s.direction) := by
      rw [List.mem_filter]
      exact ⟨hcur.1, by simp [hcur.2]⟩
    have hne : ((mapValues env.clueMap).filter
        (fun c => c.direction == s.direction)).length ≠ 0 := by
      intro h0
      rw [List.length_eq_zero] at h0
      rw [h0] at hmem_all
      simp at hmem_all
    have hallf : ∀ clue ∈ (mapValues env.clueMap).filter
        (fun c => c.direction == s.direction),
        clue ∈ mapValues env.clueMap ∧ clue.direction = s.direction :=
      fun clue hc => mem_filtered hc
    dsimp only
    rw [if_neg hne]
    have hstart := emod_toNat_lt
      (jsFindIndex ((mapValues env.clueMap).filter
        (fun c => c.direction == s.direction)) (fun c => c.number == cur.number) -
          1 + (((mapValues env.clueMap).filter
            (fun c => c.direction == s.direction)).length : Int))
      (n := ((mapValues env.clueMap).filter
        (fun c => c.direction == s.direction)).length) hne
    cases hscan : prevClueScan s.userGrid
        ((mapValues env.clueMap).filter (fun c => c.direction == s.direction))
        s.direction
        ((jsFindIndex ((mapValues env.clueMap).filter
          (fun c => c.direction == s.direction))
          (fun c => c.number == cur.number) - 1 +
            (((mapValues env.clueMap).filter
              (fun c => c.direction == s.direction)).length : Int)) %
            (((mapValues env.clueMap).filter
              (fun c => c.direction == s.direction)).length : Int)).toNat
        ((mapValues env.clueMap).filter
          (fun c => c.direction == s.direction)).length with
    | some p =>
      simp only [hscan]
      refine ⟨_, rfl, ⟨hs.1, ?_⟩, rfl, rfl⟩
      exact prevClueScan_valid henv hallf s.userGrid _ _ _ hscan
    | none =>
      simp only [hscan]
      have hget : ((mapValues env.clueMap).filter
          (fun c => c.direction == s.direction))[((jsFindIndex
            ((mapValues env.clueMap).filter (fun c => c.direction == s.direction))
            (fun c => c.number == cur.number) - 1 +
              (((mapValues env.clueMap).filter
                (fun c => c.direction == s.direction)).length : Int)) %
              (((mapValues env.clueMap).filter
                (fun c => c.direction == s.direction)).length : Int)).toNat]? =
          some (((mapValues env.clueMap).filter
            (fun c => c.direction == s.direction)).get ⟨((jsFindIndex
              ((mapValues env.clueMap).filter (fun c => c.direction == s.direction))
              (fun c => c.number == cur.number) - 1 +
                (((mapValues env.clueMap).filter
                  (fun c => c.direction == s.direction)).length : Int)) %
                (((mapValues env.clueMap).filter
                  (fun c => c.direction == s.direction)).length : Int)).toNat,
              hstart⟩) :=
        List.getElem?_eq_some.mpr ⟨hstart, rfl⟩
      rw [hget]
      refine ⟨_, rfl, ⟨hs.1, ?_⟩, rfl, rfl⟩
      have hmem := List.getElem_mem hstart
      obtain ⟨hmv, _⟩ := hallf _ hmem
      exact clueStart_valid (henv.2.2 _ hmv)

theorem userRowAtI_some {env : Env} {s : Session} (hs : SessionWF env s)
    {r : Int} (h0 : 0 ≤ r) (hlt : r < (env.rows : Int)) :
    ∃ uL, rowAtI s.userGrid r = some uL := by
  have hl : r.toNat < s.userGrid.length := by
    have := hs.1
    omega
  refine ⟨s.userGrid[r.toNat], ?_⟩
  unfold rowAtI
  rw [if_neg (by omega)]
  exact List.getElem?_eq_some.mpr ⟨hl, rfl⟩

theorem handleCellClick_wf {env : Env} (henv : EnvWF env) {s : Session}
    (hs : SessionWF env s) {row col : Int}
    (h0r : 0 ≤ row) (hlr : row < (env.rows : Int))
    (h0c : 0 ≤ col) (hlc : col < (env.cols : Int)) :
    ∃ s', handleCellClick env s row col = .ok s' ∧ SessionWF env s' := by
  obtain ⟨rowL, hrow, hrl⟩ := rowAtI_some henv h0r hlr
  unfold handleCellClick
  simp only [hrow]
  split
  · exact ⟨s, rfl, hs⟩
  next hguard =>
    rw [Bool.or_eq_true, not_or] at hguard
    split
    · exact ⟨_, rfl, hs.1, hs.2⟩
    · refine ⟨_, rfl, hs.1, ?_⟩
      show ValidSel env (row, col)
      refine ⟨h0r, hlr, h0c, hlc, ?_⟩
      unfold cellAtI
      rw [hrow]
      simp only [Option.some_bind]
      intro hdot
      exact hguard.1 (by simp [hdot])

theorem skipFilledGo_ge (ug : List (List String)) (fixed : Int)
    (acrossDir : Bool) (bound : Int) :
    ∀ v fuel, v ≤ skipFilledGo ug fixed acrossDir bound v fuel := by
  intro v fuel
  induction fuel generalizing v with
  | zero => simp [skipFilledGo]
  | succ n ih =>
    unfold skipFilledGo
    by_cases h : v < bound ∧
        truthyOpt (if acrossDir then cellAtI ug fixed v else cellAtI ug v fixed) =
          true
    · rw [if_pos h]
      have := ih (v + 1)
      omega
    · rw [if_neg h]

theorem handleInputChange_wf {env : Env} (henv : EnvWF env) {s : Session}
    (hs : SessionWF env s) {row col : Int}
    (h0r : 0 ≤ row) (hlr : row < (env.rows : Int))
    (h0c : 0 ≤ col) (hlc : col < (env.cols : Int)) (v : String) :
    ∃ s', handleInputChange env s row col v = .ok s' ∧ SessionWF env s' := by
  unfold handleInputChange
  split
  · exact ⟨s, rfl, hs⟩
  obtain ⟨uL, hu⟩ := userRowAtI_some hs h0r hlr
  simp only [hu]
  have hnglen : (setCellI s.userGrid row col (lastCharUpper v)).length =
      env.rows := by
    rw [setCellI_length]
    exact hs.1
  split
  case isFalse => exact ⟨_, rfl, hnglen, hs.2⟩
  case isTrue =>
    cases hcc : getCurrentClue env s with
    | none =>
      simp only [hcc]
      exact ⟨_, rfl, hnglen, hs.2⟩
    | some currentClue =>
      simp only [hcc]
      cases hdirc : s.direction with
      | across =>
        simp only [hdirc, beq_self_eq_true, if_true, reduceCtorEq]
        split
        · obtain ⟨s2, hs2eq, hs2wf, _, _⟩ := goToNextClue_wf henv hs
          rw [hs2eq]
          exact ⟨_, rfl, hnglen, hs2wf.2⟩
        · have hge2 : col + 1 ≤ skipFilled (setCellI s.userGrid row col
              (lastCharUpper v)) row true
              ((currentClue.startCol : Int) + (currentClue.length : Int))
              (col + 1) :=
            skipFilledGo_ge _ _ _ _ (col + 1) _
          split
          next hbnd =>
            rw [Bool.and_eq_true, decide_eq_true_iff, decide_eq_true_iff] at hbnd
            have h0nr : (0 : Int) ≤ row := h0r
            obtain ⟨gRow, hgr, _⟩ := rowAtI_some henv h0nr hbnd.1
            simp only [hgr]
            split
            · exact ⟨_, rfl, hnglen, hs.2⟩
            next hdot =>
              refine ⟨_, rfl, hnglen, ?_⟩
              show ValidSel env _
              refine ⟨h0nr, hbnd.1, by omega, hbnd.2, ?_⟩
              unfold cellAtI
              rw [hgr]
              simp only [Option.some_bind]
              intro hcontra
              rw [hcontra] at hdot
              simp at hdot
          · exact ⟨_, rfl, hnglen, hs.2⟩
      | down =>
        have hfalse : (Dir.down == Dir.across) = false := by decide
        simp only [hdirc, hfalse, if_false, Bool.false_eq_true]
        split
        · obtain ⟨s2, hs2eq, hs2wf, _, _⟩ := goToNextClue_wf henv hs
          rw [hs2eq]
          exact ⟨_, rfl, hnglen, hs2wf.2⟩
        · have hge2 : row + 1 ≤ skipFilled (setCellI s.userGrid row col
              (lastCharUpper v)) col false
              ((currentClue.startRow : Int) + (currentClue.length : Int))
              (row + 1) :=
            skipFilledGo_ge _ _ _ _ (row + 1) _
          split
          next hbnd =>
            rw [Bool.and_eq_true, decide_eq_true_iff, decide_eq_true_iff] at hbnd
            have h0nr : (0 : Int) ≤ skipFilled (setCellI s.userGrid row col
                (lastCharUpper v)) col false
                ((currentClue.startRow : Int) + (currentClue.length : Int))
                (row + 1) := by
              omega
            obtain ⟨gRow, hgr, _⟩ := rowAtI_some henv h0nr hbnd.1
            simp only [hgr]
            split
            · exact ⟨_, rfl, hnglen, hs.2⟩
            next hdot =>
              refine ⟨_, rfl, hnglen, ?_⟩
              show ValidSel env _
              refine ⟨h0nr, hbnd.1, h0c, hbnd.2, ?_⟩
              unfold cellAtI
              rw [hgr]
              simp only [Option.some_bind]
              intro hcontra
              rw [hcontra] at hdot
              simp at hdot
          · exact ⟨_, rfl, hnglen, hs.2⟩

theorem findNextCellLoop_wf {env : Env} (henv : EnvWF env) (dr dc : Int) :
    ∀ fuel r c, ∃ res,
      findNextCellLoop env.grid env.rows env.cols dr dc r c fuel = .ok res ∧
        ∀ p, res = some p → ValidSel env p := by
  intro fuel
  induction fuel with
  | zero =>
    intro r c
    exact ⟨none, rfl, by simp⟩
  | succ n ih =>
    intro r c
    unfold findNextCellLoop
    split
    next hcond =>
      simp only [Bool.and_eq_true, decide_eq_true_iff] at hcond
      obtain ⟨⟨⟨hr0, hrl⟩, hc0⟩, hcl⟩ := hcond
      obtain ⟨rowL, hrow, _⟩ := rowAtI_some henv hr0 hrl
      simp only [hrow]
      split
      · exact ih (r + dr) (c + dc)
      next hdot =>
        refine ⟨some (r, c), rfl, ?_⟩
        intro p hp
        have hpe : (r, c) = p := by injection hp
        rw [← hpe]
        refine ⟨hr0, hrl, hc0, hcl, ?_⟩
        unfold cellAtI
        rw [hrow]
        simp only [Option.some_bind]
        intro hcontra
        rw [hcontra] at hdot
        simp at hdot
    · exact ⟨none, rfl, by simp⟩

/-- The shared shape of the two "step back one cell and clear it" branches
(keyboard Backspace off word start, on-screen `BACK` on an empty cell). -/
theorem backstep_wf {env : Env} (henv : EnvWF env) {s : Session}
    (hs : SessionWF env s) {prevRow prevCol : Int}
    (hrlt : prevRow < (env.rows : Int)) (hclt : prevCol < (env.cols : Int)) :
    ∃ s', (if decide (0 ≤ prevRow) && decide (0 ≤ prevCol) then
        match rowAtI env.grid prevRow with
        | none => Except.error ()
        | some gRow =>
          if entryAtI gRow prevCol == some "." then Except.ok s
          else
            match rowAtI s.userGrid prevRow with
            | none => Except.error ()
            | some _ =>
              Except.ok { s with
                selectedCell := some (prevRow, prevCol)
                userGrid := setCellI s.userGrid prevRow prevCol "" }
      else Except.ok s) = .ok s' ∧ SessionWF env s' := by
  split
  next hsign =>
    simp only [Bool.and_eq_true, decide_eq_true_iff] at hsign
    obtain ⟨hr0, hc0⟩ := hsign
    obtain ⟨gRow, hgr, _⟩ := rowAtI_some henv hr0 hrlt
    simp only [hgr]
    split
    · exact ⟨s, rfl, hs⟩
    next hdot =>
      obtain ⟨uL, hu⟩ := userRowAtI_some hs hr0 hrlt
      simp only [hu]
      refine ⟨_, rfl, ?_, ?_⟩
      · show (setCellI s.userGrid prevRow prevCol "").length = env.rows
        rw [setCellI_length]
        exact hs.1
      · show ValidSel env (prevRow, prevCol)
        refine ⟨hr0, hrlt, hc0, hclt, ?_⟩
        unfold cellAtI
        rw [hgr]
        simp only [Option.some_bind]
        intro hcontra
        rw [hcontra] at hdot
        simp at hdot
  · exact ⟨s, rfl, hs⟩

/-- The last cell of a well-formed clue word is valid (per direction). -/
theorem clueLast_valid_across {env : Env} {clue : ClueInfo}
    (hwf : ClueWF env clue) (hd : clue.direction = Dir.across) :
    ValidSel env ((clue.startRow : Int),
      (clue.startCol : Int) + (clue.length : Int) - 1) := by
  have hlen := hwf.1
  have hmem : (clue.startRow, clue.startCol + (clue.length - 1)) ∈
      getWordCells clue clue.direction := by
    rw [hd]
    unfold getWordCells
    simp only [List.mem_map, List.mem_range]
    exact ⟨clue.length - 1, by omega, rfl⟩
  have hv := valid_of_wordCell hwf hmem
  have hcast : ((clue.startCol + (clue.length - 1) : Nat) : Int) =
      (clue.startCol : Int) + (clue.length : Int) - 1 := by
    push_cast [hlen]
    omega
  rw [← hcast]
  exact hv

theorem clueLast_valid_down {env : Env} {clue : ClueInfo}
    (hwf : ClueWF env clue) (hd : clue.direction = Dir.down) :
    ValidSel env ((clue.startRow : Int) + (clue.length : Int) - 1,
      (clue.startCol : Int)) := by
  have hlen := hwf.1
  have hmem : (clue.startRow + (clue.length - 1), clue.startCol) ∈
      getWordCells clue clue.direction := by
    rw [hd]
    unfold getWordCells
    simp only [List.mem_map, List.mem_range]
    exact ⟨clue.length - 1, by omega, rfl⟩
  have hv := valid_of_wordCell hwf hmem
  have hcast : ((clue.startRow + (clue.length - 1) : Nat) : Int) =
      (clue.startRow : Int) + (clue.length : Int) - 1 := by
    push_cast [hlen]
    omega
  rw [← hcast]
  exact hv

theorem handleKeyDown_wf {env : Env} (henv : EnvWF env) {s : Session}
    (hs : SessionWF env s) (k : KeyEvt) {row col : Int}
    (h0r : 0 ≤ row) (hlr : row < (env.rows : Int))
    (h0c : 0 ≤ col) (hlc : col < (env.cols : Int)) :
    ∃ s', handleKeyDown env s k row col = .ok s' ∧ SessionWF env s' := by
  unfold handleKeyDown
  split
  · exact ⟨s, rfl, hs⟩
  cases k with
  | space => exact ⟨_, rfl, hs.1, hs.2⟩
  | tab shift =>
    cases shift
    · simp only [Bool.false_eq_true, if_false]
      obtain ⟨s2, heq, hwf2, _, _⟩ := goToNextClue_wf henv hs
      exact ⟨s2, heq, hwf2⟩
    · simp only [if_true]
      obtain ⟨s2, heq, hwf2, _, _⟩ := goToPrevClue_wf henv hs
      exact ⟨s2, heq, hwf2⟩
  | backspace =>
    obtain ⟨uL, hu⟩ := userRowAtI_some hs h0r hlr
    simp only [hu]
    split
    · exact ⟨s, rfl, hs⟩
    cases hcc : getCurrentClue env s with
    | none =>
      simp only [hcc]
      exact ⟨s, rfl, hs⟩
    | some currentClue =>
      simp only [hcc]
      split
      · -- at word start: jump to the last cell of the previous clue
        have hcur := getCurrentClue_mem hcc
        have hmem_all : currentClue ∈ (mapValues env.clueMap).filter
            (fun c => c.direction == s.direction) := by
          rw [List.mem_filter]
          exact ⟨hcur.1, by simp [hcur.2]⟩
        have hne : ((mapValues env.clueMap).filter
            (fun c => c.direction == s.direction)).length ≠ 0 := by
          intro h0
          rw [List.length_eq_zero] at h0
          rw [h0] at hmem_all
          simp at hmem_all
        rw [if_neg hne]
        have hidx := emod_toNat_lt
          (jsFindIndex ((mapValues env.clueMap).filter
            (fun c => c.direction == s.direction))
            (fun c => c.number == currentClue.number) - 1 +
              (((mapValues env.clueMap).filter
                (fun c => c.direction == s.direction)).length : Int))
          (n := ((mapValues env.clueMap).filter
            (fun c => c.direction == s.direction)).length) hne
        have hget : ((mapValues env.clueMap).filter
            (fun c => c.direction == s.direction))[((jsFindIndex
              ((mapValues env.clueMap).filter
                (fun c => c.direction == s.direction))
              (fun c => c.number == currentClue.number) - 1 +
                (((mapValues env.clueMap).filter
                  (fun c => c.direction == s.direction)).length : Int)) %
                (((mapValues env.clueMap).filter
                  (fun c => c.direction == s.direction)).length : Int)).toNat]? =
            some (((mapValues env.clueMap).filter
              (fun c => c.direction == s.direction)).get ⟨((jsFindIndex
                ((mapValues env.clueMap).filter
                  (fun c => c.direction == s.direction))
                (fun c => c.number == currentClue.number) - 1 +
                  (((mapValues env.clueMap).filter
                    (fun c => c.direction == s.direction)).length : Int)) %
                  (((mapValues env.clueMap).filter
                    (fun c => c.direction == s.direction)).length : Int)).toNat,
                hidx⟩) :=
          List.getElem?_eq_some.mpr ⟨hidx, rfl⟩
        rw [hget]
        obtain ⟨hpmv, hpdir⟩ := mem_filtered (List.get_mem _ _ hidx)
        have hpwf := henv.2.2 _ hpmv
        by_cases hdA : (s.direction == Dir.across) = true
        · simp only [hdA, if_true]
          refine ⟨_, rfl, hs.1, ?_⟩
          rw [beq_iff_eq] at hdA
          exact clueLast_valid_across hpwf (by rw [hpdir, hdA])
        · rw [Bool.not_eq_true] at hdA
          simp only [hdA, Bool.false_eq_true, if_false]
          refine ⟨_, rfl, hs.1, ?_⟩
          have hdown : s.direction = Dir.down := by
            cases hd : s.direction
            · rw [hd] at hdA
              simp at hdA
            · rfl
          exact clueLast_valid_down hpwf (by rw [hpdir, hdown])
      · -- not at word start: step back one cell
        have hrb : (if s.direction == Dir.across then row else row - 1) <
            (env.rows : Int) := by
          split <;> omega
        have hcb : (if s.direction == Dir.across then col - 1 else col) <
            (env.cols : Int) := by
          split <;> omega
        exact backstep_wf henv hs hrb hcb
  | arrowLeft =>
    unfold findNextCell
    obtain ⟨res, heq, hval⟩ := findNextCellLoop_wf henv 0 (-1)
      (env.rows + env.cols + 1) (row + 0) (col + -1)
    rw [heq]
    cases res with
    | none => exact ⟨s, rfl, hs⟩
    | some p => exact ⟨_, rfl, hs.1, hval p rfl⟩
  | arrowRight =>
    unfold findNextCell
    obtain ⟨res, heq, hval⟩ := findNextCellLoop_wf henv 0 1
      (env.rows + env.cols + 1) (row + 0) (col + 1)
    rw [heq]
    cases res with
    | none => exact ⟨s, rfl, hs⟩
    | some p => exact ⟨_, rfl, hs.1, hval p rfl⟩
  | arrowUp =>
    unfold findNextCell
    obtain ⟨res, heq, hval⟩ := findNextCellLoop_wf henv (-1) 0
      (env.rows + env.cols + 1) (row + -1) (col + 0)
    rw [heq]
    cases res with
    | none => exact ⟨s, rfl, hs⟩
    | some p => exact ⟨_, rfl, hs.1, hval p rfl⟩
  | arrowDown =>
    unfold findNextCell
    obtain ⟨res, heq, hval⟩ := findNextCellLoop_wf henv 1 0
      (env.rows + env.cols + 1) (row + 1) (col + 0)
    rw [heq]
    cases res with
    | none => exact ⟨s, rfl, hs⟩
    | some p => exact ⟨_, rfl, hs.1, hval p rfl⟩
  | other => exact ⟨s, rfl, hs⟩

theorem handleKeyboardClick_wf {env : Env} (henv : EnvWF env) {s : Session}
    (hs : SessionWF env s) (key : String) :
    ∃ s', handleKeyboardClick env s key = .ok s' ∧ SessionWF env s' := by
  unfold handleKeyboardClick
  split
  · exact ⟨s, rfl, hs⟩
  cases hsel : s.selectedCell with
  | none => simp only [hsel]; exact ⟨s, rfl, hs⟩
  | some p =>
    simp only [hsel]
    have hpv : ValidSel env p := by
      have h2 := hs.2
      rw [hsel] at h2
      exact h2
    split
    · -- BACK
      obtain ⟨uL, hu⟩ := userRowAtI_some hs hpv.1 hpv.2.1
      simp only [hu]
      split
      · refine ⟨_, rfl, ?_, ?_⟩
        · show (setCellI s.userGrid p.1 p.2 "").length = env.rows
          rw [setCellI_length]
          exact hs.1
        · exact hpv
      · have hrb : (if s.direction == Dir.across then p.1 else p.1 - 1) <
            (env.rows : Int) := by
          have := hpv.2.1
          split <;> omega
        have hcb : (if s.direction == Dir.across then p.2 - 1 else p.2) <
            (env.cols : Int) := by
          have := hpv.2.2.2.1
          split <;> omega
        exact backstep_wf henv hs hrb hcb
    · exact handleInputChange_wf henv hs hpv.1 hpv.2.1 hpv.2.2.1 hpv.2.2.2.1 key

/-- One well-formed operation from a well-formed state never throws and
preserves the session invariant. -/
theorem step_wf {env : Env} (henv : EnvWF env) {s : Session}
    (hs : SessionWF env s) {op : Op} (hop : OpWF env op) :
    ∃ s', step env s op = .ok s' ∧ SessionWF env s' := by
  cases op with
  | cellClick r c =>
    obtain ⟨h1, h2, h3, h4⟩ := hop
    exact handleCellClick_wf henv hs h1 h2 h3 h4
  | input r c v =>
    obtain ⟨h1, h2, h3, h4⟩ := hop
    exact handleInputChange_wf henv hs h1 h2 h3 h4 v
  | key k r c =>
    obtain ⟨h1, h2, h3, h4⟩ := hop
    exact handleKeyDown_wf henv hs k h1 h2 h3 h4
  | kb key => exact handleKeyboardClick_wf henv hs key
  | clueClick clue =>
    refine ⟨_, rfl, hs.1, ?_⟩
    show ValidSel env _
    exact clueStart_valid (henv.2.2 clue hop)
  | toggleDir => exact ⟨_, rfl, hs.1, hs.2⟩
  | nextClue =>
    obtain ⟨s2, heq, hwf2, _, _⟩ := goToNextClue_wf henv hs
    exact ⟨s2, heq, hwf2⟩
  | prevClue =>
    obtain ⟨s2, heq, hwf2, _, _⟩ := goToPrevClue_wf henv hs
    exact ⟨s2, heq, hwf2⟩

/-- C5: over any sequence of well-formed operations from a well-formed state,
the engine never throws, and after every operation the selected cell — when
one is set — lies within the grid bounds and is not a black cell. -/
theorem C5_selection_invariant (env : Env) (henv : EnvWF env) (s : Session)
    (hs : SessionWF env s) (ops : List Op) (hops : ∀ op ∈ ops, OpWF env op) :
    ∃ s', runOps env s ops = .ok s' ∧ SessionWF env s' := by
  induction ops generalizing s with
  | nil => exact ⟨s, rfl, hs⟩
  | cons op rest ih =>
    obtain ⟨s1, heq1, hwf1⟩ := step_wf henv hs (hops op (by simp))
    obtain ⟨s2, heq2, hwf2⟩ := ih s1 hwf1 (fun o ho => hops o (by simp [ho]))
    refine ⟨s2, ?_, hwf2⟩
    unfold runOps
    rw [heq1]
    exact heq2

instance (env : Env) (op : Op) : Decidable (OpWF env op) := by
  cases op <;> (unfold OpWF; infer_instance)

/-- A 1×3 environment for the concrete runs: grid `CAT`, one across clue. -/
def catEnv : Env :=
  ⟨[["C", "A", "T"]], 1, 3,
    (buildClueMapAndNumberGrid [["C", "A", "T"]] 1 3 ["1. Feline"] []).map,
    false, true, false⟩

def catSession : Session := ⟨[["", "", ""]], none, Dir.across⟩

/-- The `CAT` puzzle with the cursor on the across word's first cell. -/
def catSession2 : Session := ⟨[["", "", ""]], some (0, 0), Dir.across⟩

def catOps : List Op :=
  [Op.cellClick 0 0, Op.input 0 0 "c", Op.key KeyEvt.space 0 1,
    Op.key KeyEvt.backspace 0 1, Op.kb "BACK", Op.toggleDir, Op.nextClue]

/-- C5 (witness): a concrete run of seven mixed operations on the `CAT`
puzzle stays error-free and keeps the cursor invariant. -/
theorem C5_witness :
    EnvWF catEnv ∧ SessionWF catEnv catSession ∧
      ∃ s', runOps catEnv catSession catOps = .ok s' ∧
        SessionWF catEnv s' :=
  ⟨by decide, by decide,
    C5_selection_invariant catEnv (by decide) catSession (by decide) catOps
      (by decide)⟩

/-! ## Claim C7 -/

/-- A paused environment over a 1×2 grid. -/
def pausedEnv : Env := ⟨[["A", "B"]], 1, 2, [], false, true, true⟩

def pausedSession : Session := ⟨[["", ""]], some (0, 0), Dir.across⟩

/-- C7 (counterexample): with the pause flag set, the direction-toggle
operation still flips the direction — it consults no pause flag, so "every
engine operation is a no-op while paused" is false. -/
theorem C7_counterexample :
    pausedEnv.isPaused = true ∧
      step pausedEnv pausedSession Op.toggleDir ≠ .ok pausedSession := by
  decide

/-- C7 (amended): while the pause flag is set, the four guarded handlers —
cell click (on an existing grid row), character input, key handling, and the
on-screen keyboard — leave the session state unchanged; the direction toggle,
the clue-list click, and the direct clue-advance callbacks perform no pause
check. -/
theorem C7_pause_noops (env : Env) (s : Session) (hp : env.isPaused = true)
    (row col : Int) (v : String) (k : KeyEvt) (key : String)
    (rowL : List String) (hrow : rowAtI env.grid row = some rowL) :
    handleCellClick env s row col = .ok s ∧
      handleInputChange env s row col v = .ok s ∧
      handleKeyDown env s k row col = .ok s ∧
      handleKeyboardClick env s key = .ok s := by
  have hoff : interactionOff env = true := by
    unfold interactionOff
    rw [hp]
    simp
  refine ⟨?_, ?_, ?_, ?_⟩
  · unfold handleCellClick
    simp [hrow, hoff]
  · unfold handleInputChange
    simp [hoff]
  · unfold handleKeyDown
    simp [hoff]
  · unfold handleKeyboardClick
    simp [hoff]

/-- C7 (witness): the four guarded handlers are no-ops on the concrete paused
environment. -/
theorem C7_witness :
    handleCellClick pausedEnv pausedSession 0 0 = .ok pausedSession ∧
      handleInputChange pausedEnv pausedSession 0 0 "x" = .ok pausedSession ∧
      handleKeyDown pausedEnv pausedSession KeyEvt.space 0 0 = .ok pausedSession ∧
      handleKeyboardClick pausedEnv pausedSession "A" = .ok pausedSession :=
  C7_pause_noops pausedEnv pausedSession (by decide) 0 0 "x" KeyEvt.space "A"
    ["A", "B"] (by decide)

/-! ## Claim C8 -/

/-- A 1×3 environment whose first cell is black. -/
def mixedEnv : Env := ⟨[[".", "A", "B"]], 1, 3, [], false, true, false⟩

def mixedSession : Session := ⟨[["", "", ""]], none, Dir.across⟩

/-- C8 (counterexample): `handleInputChange` performs no black-cell check: a
character input targeted at the in-bounds black cell (0,0) completes without
error but *stores the letter*, changing the session state — the claimed
"state unchanged on black targets" is false. -/
theorem C8_counterexample :
    cellAtI mixedEnv.grid 0 0 = some "." ∧
      handleInputChange mixedEnv mixedSession 0 0 "x" =
        .ok ⟨[["X", "", ""]], none, Dir.across⟩ ∧
      (⟨[["X", "", ""]], none, Dir.across⟩ : Session) ≠ mixedSession := by
  decide

/-- C8 (amended): for in-bounds coordinates the three input operations never
raise an error; `handleCellClick` on a black cell leaves the state unchanged;
but `handleInputChange` does not check for black cells (the counterexample
stores a letter there), and coordinates outside the grid are not uniformly
ignored (a missing row raises a `TypeError`). -/
theorem C8_inbounds_no_error (env : Env) (henv : EnvWF env) (s : Session)
    (hs : SessionWF env s) (row col : Int)
    (h0r : 0 ≤ row) (hlr : row < (env.rows : Int))
    (h0c : 0 ≤ col) (hlc : col < (env.cols : Int)) (v : String) :
    (cellAtI env.grid row col = some "." →
        handleCellClick env s row col = .ok s) ∧
      (∃ s', handleInputChange env s row col v = .ok s' ∧ SessionWF env s') ∧
      (∃ s', handleKeyDown env s KeyEvt.backspace row col = .ok s' ∧
        SessionWF env s') := by
  refine ⟨?_, handleInputChange_wf henv hs h0r hlr h0c hlc v,
    handleKeyDown_wf henv hs KeyEvt.backspace h0r hlr h0c hlc⟩
  intro hblack
  obtain ⟨rowL, hrow, _⟩ := rowAtI_some henv h0r hlr
  unfold cellAtI at hblack
  rw [hrow] at hblack
  simp only [Option.some_bind] at hblack
  unfold handleCellClick
  simp [hrow, hblack]

/-- C8 (witness): concrete instances on the mixed grid — a black-cell click
is ignored, input and backspace at the black cell complete without error. -/
theorem C8_witness :
    handleCellClick mixedEnv mixedSession 0 0 = .ok mixedSession ∧
      (∃ s', handleInputChange mixedEnv mixedSession 0 0 "x" = .ok s' ∧
        SessionWF mixedEnv s') ∧
      ∃ s', handleKeyDown mixedEnv mixedSession KeyEvt.backspace 0 0 = .ok s' ∧
        SessionWF mixedEnv s' :=
  ⟨(C8_inbounds_no_error mixedEnv (by decide) mixedSession (by decide) 0 0
      (by decide) (by decide) (by decide) (by decide) "x").1 (by decide),
    (C8_inbounds_no_error mixedEnv (by decide) mixedSession (by decide) 0 0
      (by decide) (by decide) (by decide) (by decide) "x").2.1,
    (C8_inbounds_no_error mixedEnv (by decide) mixedSession (by decide) 0 0
      (by decide) (by decide) (by decide) (by decide) "x").2.2⟩

/-! ## Claim C1 — the two numbering algorithms -/

theorem jsMapGet_cons {κ ν : Type} [DecidableEq κ] (a : κ × ν)
    (t : List (κ × ν)) (k : κ) :
    jsMapGet (a :: t) k = if a.1 = k then some a.2 else jsMapGet t k := by
  unfold jsMapGet
  rw [List.find?_cons]
  by_cases h : a.1 = k <;> simp [h]

theorem jsMapGet_map_set_self {κ ν : Type} [DecidableEq κ] (k : κ) (v : ν) :
    ∀ t : List (κ × ν), t.any (fun p => decide (p.1 = k)) = true →
      jsMapGet (t.map (fun p => if p.1 = k then (k, v) else p)) k = some v := by
  intro t
  induction t with
  | nil =>
    intro h
    simp at h
  | cons a t ih =>
    intro h
    rw [List.map_cons, jsMapGet_cons]
    by_cases ha : a.1 = k
    · simp [ha]
    · rw [if_neg ha]
      simp only [List.any_cons, decide_eq_true_iff, Bool.or_eq_true] at h
      rcases h with h | h
      · exact absurd h ha
      · rw [if_neg ha]
        exact ih (by simpa using h)

theorem jsMapGet_mapSet_ne {κ ν : Type} [DecidableEq κ]
    (t : List (κ × ν)) (k k' : κ) (v : ν) (h : k' ≠ k) :
    jsMapGet (t.map (fun p => if p.1 = k then (k, v) else p)) k' =
      jsMapGet t k' := by
  induction t with
  | nil => rfl
  | cons a t ih =>
    rw [List.map_cons, jsMapGet_cons, jsMapGet_cons]
    by_cases ha : a.1 = k
    · rw [if_pos ha]
      have h1 : ¬ ((k, v).1 = k') := fun hh => h (hh.symm)
      have h2 : ¬ (a.1 = k') := by
        rw [ha]
        exact fun hh => h hh.symm
      rw [if_neg h1, if_neg h2]
      exact ih
    · rw [if_neg ha]
      by_cases hk : a.1 = k'
      · rw [if_pos hk, if_pos hk]
      · rw [if_neg hk, if_neg hk]
        exact ih

theorem jsMapGet_eq_none_of_not_any {κ ν : Type} [DecidableEq κ]
    {m : List (κ × ν)} {k : κ}
    (h : ¬ m.any (fun p => decide (p.1 = k)) = true) :
    jsMapGet m k = none := by
  unfold jsMapGet
  rw [List.any_eq_true] at h
  push_neg at h
  have : m.find? (fun p => decide (p.1 = k)) = none := by
    rw [List.find?_eq_none]
    intro p hp
    simpa using h p hp
  rw [this]
  rfl

theorem jsMapGet_append {κ ν : Type} [DecidableEq κ]
    (m₁ m₂ : List (κ × ν)) (k : κ) :
    jsMapGet (m₁ ++ m₂) k =
      match jsMapGet m₁ k with
      | some v => some v
      | none => jsMapGet m₂ k := by
  induction m₁ with
  | nil => rfl
  | cons a t ih =>
    rw [List.cons_append, jsMapGet_cons, jsMapGet_cons]
    by_cases ha : a.1 = k
    · rw [if_pos ha, if_pos ha]
    · rw [if_neg ha, if_neg ha]
      exact ih

/-- `Map.set` followed by `Map.get`. -/
theorem jsMapGet_set {κ ν : Type} [DecidableEq κ] (m : List (κ × ν))
    (k k' : κ) (v : ν) :
    jsMapGet (jsMapSet m k v) k' =
      if k' = k then some v else jsMapGet m k' := by
  unfold jsMapSet
  by_cases hany : m.any (fun p => decide (p.1 = k)) = true
  · rw [if_pos hany]
    by_cases hk : k' = k
    · subst hk
      rw [if_pos rfl]
      exact jsMapGet_map_set_self k' v m hany
    · rw [if_neg hk]
      exact jsMapGet_mapSet_ne m k k' v hk
  · rw [if_neg hany, jsMapGet_append]
    by_cases hk : k' = k
    · subst hk
      rw [jsMapGet_eq_none_of_not_any hany, if_pos rfl, jsMapGet_cons]
      simp
    · rw [if_neg hk]
      have h2 : jsMapGet [(k, v)] k' = none := by
        rw [jsMapGet_cons]
        rw [if_neg (fun hh => hk hh.symm)]
        rfl
      cases hm : jsMapGet m k' with
      | some w => rfl
      | none => rw [h2]

theorem set2D_length (g : List (List (Option Nat))) (r c : Nat)
    (v : Option Nat) : (set2D g r c v).length = g.length := by
  unfold set2D
  simp

theorem set2D_row_lengths {g : List (List (Option Nat))} {cols : Nat}
    (hg : ∀ row ∈ g, row.length = cols) (r c : Nat) (v : Option Nat) :
    ∀ row ∈ set2D g r c v, row.length = cols := by
  intro row hrow
  unfold set2D at hrow
  by_cases hlt : r < g.length
  · rcases List.mem_or_eq_of_mem_set hrow with h | h
    · exact hg row h
    · subst h
      have hgr : g[r]? = some g[r] := List.getElem?_eq_some.mpr ⟨hlt, rfl⟩
      simp only [hgr, Option.getD_some]
      rw [List.length_set]
      exact hg _ (List.getElem_mem hlt)
  · rw [List.set_eq_of_length_le (by omega)] at hrow
    exact hg row hrow

theorem numAt_set2D_same {g : List (List (Option Nat))} {rows cols : Nat}
    (hlen : g.length = rows) (hrows : ∀ row ∈ g, row.length = cols)
    {r c : Nat} (hr : r < rows) (hc : c < cols) (n : Nat) :
    numAt (set2D g r c (some n)) r c = some n := by
  have hrl : r < g.length := by omega
  have hgr : g[r]? = some g[r] := List.getElem?_eq_some.mpr ⟨hrl, rfl⟩
  unfold numAt set2D
  rw [hgr]
  simp only [Option.getD_some]
  rw [List.getElem?_set_eq (by simpa using hrl)]
  simp only [Option.some_bind]
  have hcl : c < g[r].length := by
    rw [hrows g[r] (List.getElem_mem hrl)]
    omega
  rw [List.getElem?_set_eq (by simpa using hcl)]
  rfl

theorem numAt_set2D_ne {g : List (List (Option Nat))} {r c r' c' : Nat}
    (h : ¬ (r' = r ∧ c' = c)) (v : Option Nat) :
    numAt (set2D g r c v) r' c' = numAt g r' c' := by
  unfold numAt set2D
  by_cases hr : r' = r
  · subst hr
    have hc : c' ≠ c := fun hh => h ⟨rfl, hh⟩
    by_cases hlt : r' < g.length
    · have hgr : g[r']? = some g[r'] := List.getElem?_eq_some.mpr ⟨hlt, rfl⟩
      rw [List.getElem?_set_eq (by simpa using hlt), hgr]
      simp only [Option.some_bind, Option.getD_some]
      rw [List.getElem?_set_ne (fun hh => hc hh.symm)]
    · rw [List.set_eq_of_length_le (by omega)]
  · rw [List.getElem?_set_ne (fun hh => hr hh.symm)]

/-- Reading the 2D conversion at an in-bounds position is a flat read. -/
theorem cellAt_convert {flat : List String} {rows cols : Nat}
    (hlen : flat.length = rows * cols) {r c : Nat}
    (hr : r < rows) (hc : c < cols) :
    cellAt (convertFlatGridTo2D flat rows cols) r c = flat[r * cols + c]? := by
  unfold cellAt convertFlatGridTo2D
  rw [List.getElem?_map, List.getElem?_range hr]
  simp only [Option.map_some', Option.some_bind]
  rw [List.getElem?_take, if_pos hc, List.getElem?_drop]

/-- The per-cell numbering condition of `buildClueMapAndNumberGrid`, phrased
over the flat grid: playable, and at a left or top boundary. -/
def helperCellB (flat : List String) (cols : Nat) (rc : Nat × Nat) : Bool :=
  !(flat[rc.1 * cols + rc.2]? == some ".") &&
    (decide (rc.2 = 0) || flat[rc.1 * cols + (rc.2 - 1)]? == some "." ||
      decide (rc.1 = 0) || flat[(rc.1 - 1) * cols + rc.2]? == some ".")

/-- The per-cell numbering condition of `assignClueNumbers`: playable, and
starting an across or down run of length at least two. -/
def decoderCellB (flat : List String) (width height : Nat)
    (yx : Nat × Nat) : Bool :=
  !isBlackCell flat yx.2 yx.1 width &&
    (cellNeedsAcrossNumber flat yx.2 yx.1 width ||
      cellNeedsDownNumber flat yx.2 yx.1 width height)

/-- A cell numbered by the decoder is numbered by the ClueIndexer: a ≥2-run
start is in particular a left/top boundary. -/
theorem decoder_implies_helper (flat : List String) (rows cols : Nat)
    (rc : Nat × Nat) (h : decoderCellB flat cols rows rc = true) :
    helperCellB flat cols rc = true := by
  unfold decoderCellB at h
  unfold helperCellB
  rw [Bool.and_eq_true] at h ⊢
  refine ⟨?_, ?_⟩
  · have := h.1
    unfold isBlackCell at this
    simpa [isBlackCell] using this
  · have h2 := h.2
    rw [Bool.or_eq_true] at h2
    rcases h2 with ha | hd
    · unfold cellNeedsAcrossNumber isBlackCell at ha
      rw [Bool.and_eq_true, Bool.or_eq_true] at ha
      rcases ha.1 with h1 | h1
      · simp only [beq_iff_eq] at h1
        simp [h1]
      · simp [h1]
    · unfold cellNeedsDownNumber isBlackCell at hd
      rw [Bool.and_eq_true, Bool.or_eq_true] at hd
      rcases hd.1 with h1 | h1
      · simp only [beq_iff_eq] at h1
        simp [h1]
      · simp [h1]

/-- One step of the abstract "number the cells satisfying `P` in order"
scan: record the counter at the cell and advance it. -/
def numStep (P : Nat × Nat → Bool)
    (st : List ((Nat × Nat) × Nat) × Nat) (cell : Nat × Nat) :
    List ((Nat × Nat) × Nat) × Nat :=
  if P cell then (jsMapSet st.1 cell st.2, st.2 + 1) else st

def numberFold (P : Nat × Nat → Bool) (cells : List (Nat × Nat))
    (st : List ((Nat × Nat) × Nat) × Nat) :
    List ((Nat × Nat) × Nat) × Nat :=
  cells.foldl (numStep P) st

theorem numberFold_congr {P Q : Nat × Nat → Bool} :
    ∀ (cells : List (Nat × Nat)) st,
      (∀ cell ∈ cells, P cell = Q cell) →
      numberFold P cells st = numberFold Q cells st := by
  intro cells
  induction cells with
  | nil =>
    intro st h
    rfl
  | cons a t ih =>
    intro st h
    unfold numberFold at ih ⊢
    simp only [List.foldl_cons]
    have hstep : numStep P st a = numStep Q st a := by
      unfold numStep
      rw [h a (by simp)]
    rw [hstep]
    exact ih _ (fun c hc => h c (by simp [hc]))

theorem mem_rowMajor {rows cols : Nat} {rc : Nat × Nat}
    (h : rc ∈ rowMajor rows cols) : rc.1 < rows ∧ rc.2 < cols := by
  unfold rowMajor at h
  simp only [List.mem_flatMap, List.mem_map, List.mem_range] at h
  obtain ⟨r, hr, c, hc, he⟩ := h
  rw [← he]
  exact ⟨hr, hc⟩

theorem optStr_beq_decide (a b : Option String) :
    (a == b) = decide (a = b) := by
  by_cases h : a = b <;> simp [h]

/-- `buildStep`'s effect on the number grid and the counter, isolated from
its clue-map bookkeeping. -/
theorem buildStep_numbers_current (grid : List (List String))
    (rows cols : Nat) (ac dc : List String) (bs : BuildState)
    (rc : Nat × Nat) :
    ((buildStep grid rows cols ac dc bs rc).numbers,
      (buildStep grid rows cols ac dc bs rc).current) =
      if (decide (¬ cellAt grid rc.1 rc.2 = some ".") &&
          (decide (rc.2 = 0) ||
            decide (cellAt grid rc.1 (rc.2 - 1) = some ".") ||
            decide (rc.1 = 0) ||
            decide (cellAt grid (rc.1 - 1) rc.2 = some "."))) = true
      then (set2D bs.numbers rc.1 rc.2 (some bs.current), bs.current + 1)
      else (bs.numbers, bs.current) := by
  unfold buildStep
  by_cases hb : cellAt grid rc.1 rc.2 = some "."
  · simp [hb]
  · by_cases hn : (decide (rc.2 = 0) ||
        decide (cellAt grid rc.1 (rc.2 - 1) = some ".") ||
        decide (rc.1 = 0) ||
        decide (cellAt grid (rc.1 - 1) rc.2 = some ".")) = true
    · simp [hb, hn]
    · simp [hb, hn]

theorem buildStep_sim {flat : List String} {rows cols : Nat}
    (hlen : flat.length = rows * cols) (ac dc : List String)
    (bs : BuildState) (rc : Nat × Nat)
    (hr : rc.1 < rows) (hc : rc.2 < cols)
    (m : List ((Nat × Nat) × Nat)) (n : Nat)
    (hd1 : bs.numbers.length = rows)
    (hd2 : ∀ row ∈ bs.numbers, row.length = cols)
    (hcur : bs.current = n)
    (hpt : ∀ r c, numAt bs.numbers r c = jsMapGet m (r, c)) :
    (buildStep (convertFlatGridTo2D flat rows cols) rows cols ac dc bs
        rc).numbers.length = rows ∧
      (∀ row ∈ (buildStep (convertFlatGridTo2D flat rows cols) rows cols ac dc
        bs rc).numbers, row.length = cols) ∧
      (buildStep (convertFlatGridTo2D flat rows cols) rows cols ac dc bs
        rc).current = (numStep (helperCellB flat cols) (m, n) rc).2 ∧
      ∀ r c, numAt (buildStep (convertFlatGridTo2D flat rows cols) rows cols
          ac dc bs rc).numbers r c =
        jsMapGet (numStep (helperCellB flat cols) (m, n) rc).1 (r, c) := by
  have hkey := buildStep_numbers_current (convertFlatGridTo2D flat rows cols)
    rows cols ac dc bs rc
  have hacc0 := cellAt_convert hlen hr hc
  have hacc1 := cellAt_convert hlen hr (show rc.2 - 1 < cols by omega)
  have hacc2 := cellAt_convert hlen (show rc.1 - 1 < rows by omega) hc
  have hP : helperCellB flat cols rc =
      (decide (¬ cellAt (convertFlatGridTo2D flat rows cols) rc.1 rc.2 =
          some ".") &&
        (decide (rc.2 = 0) ||
          decide (cellAt (convertFlatGridTo2D flat rows cols) rc.1 (rc.2 - 1) =
            some ".") ||
          decide (rc.1 = 0) ||
          decide (cellAt (convertFlatGridTo2D flat rows cols) (rc.1 - 1) rc.2 =
            some "."))) := by
    unfold helperCellB
    rw [hacc0, hacc1, hacc2, optStr_beq_decide, optStr_beq_decide,
      optStr_beq_decide]
    by_cases h0 : flat[rc.1 * cols + rc.2]? = some "." <;> simp [h0]
  rw [← hP] at hkey
  cases hPv : helperCellB flat cols rc with
  | true =>
    rw [hPv] at hkey
    simp only [if_true] at hkey
    have hnum : (buildStep (convertFlatGridTo2D flat rows cols) rows cols ac dc
        bs rc).numbers = set2D bs.numbers rc.1 rc.2 (some bs.current) :=
      congrArg Prod.fst hkey
    have hcur2 : (buildStep (convertFlatGridTo2D flat rows cols) rows cols ac
        dc bs rc).current = bs.current + 1 := congrArg Prod.snd hkey
    have hstep : numStep (helperCellB flat cols) (m, n) rc =
        (jsMapSet m rc n, n + 1) := by
      unfold numStep
      rw [hPv]
      simp
    rw [hnum, hcur2, hstep]
    refine ⟨by rw [set2D_length]; exact hd1, set2D_row_lengths hd2 _ _ _,
      by simp [hcur], ?_⟩
    intro r c
    by_cases hrc : r = rc.1 ∧ c = rc.2
    · obtain ⟨h1, h2⟩ := hrc
      subst h1
      subst h2
      rw [numAt_set2D_same hd1 hd2 hr hc, jsMapGet_set]
      rw [if_pos (by simp), hcur]
    · rw [numAt_set2D_ne hrc, jsMapGet_set, if_neg, hpt]
      intro hEq
      apply hrc
      have h1 : r = rc.1 := congrArg Prod.fst hEq
      have h2 : c = rc.2 := congrArg Prod.snd hEq
      exact ⟨h1, h2⟩
  | false =>
    rw [hPv] at hkey
    simp only [Bool.false_eq_true, if_false] at hkey
    have hnum : (buildStep (convertFlatGridTo2D flat rows cols) rows cols ac dc
        bs rc).numbers = bs.numbers := congrArg Prod.fst hkey
    have hcur2 : (buildStep (convertFlatGridTo2D flat rows cols) rows cols ac
        dc bs rc).current = bs.current := congrArg Prod.snd hkey
    have hstep : numStep (helperCellB flat cols) (m, n) rc = (m, n) := by
      unfold numStep
      rw [hPv]
      simp
    rw [hnum, hcur2, hstep]
    exact ⟨hd1, hd2, hcur, hpt⟩

theorem helper_fold_sim {flat : List String} {rows cols : Nat}
    (hlen : flat.length = rows * cols) (ac dc : List String) :
    ∀ (cells : List (Nat × Nat)) (bs : BuildState)
      (m : List ((Nat × Nat) × Nat)) (n : Nat),
      (∀ cell ∈ cells, cell.1 < rows ∧ cell.2 < cols) →
      bs.numbers.length = rows →
      (∀ row ∈ bs.numbers, row.length = cols) →
      bs.current = n →
      (∀ r c, numAt bs.numbers r c = jsMapGet m (r, c)) →
      (cells.foldl (buildStep (convertFlatGridTo2D flat rows cols) rows cols
          ac dc) bs).current =
        (numberFold (helperCellB flat cols) cells (m, n)).2 ∧
      ∀ r c, numAt (cells.foldl (buildStep (convertFlatGridTo2D flat rows cols)
          rows cols ac dc) bs).numbers r c =
        jsMapGet (numberFold (helperCellB flat cols) cells (m, n)).1 (r, c) := by
  intro cells
  induction cells with
  | nil =>
    intro bs m n _ _ _ hcur hpt
    exact ⟨hcur, hpt⟩
  | cons a t ih =>
    intro bs m n hmem hd1 hd2 hcur hpt
    obtain ⟨ha1, ha2⟩ := hmem a (by simp)
    obtain ⟨hd1', hd2', hcur', hpt'⟩ :=
      buildStep_sim hlen ac dc bs a ha1 ha2 m n hd1 hd2 hcur hpt
    unfold numberFold
    simp only [List.foldl_cons]
    have := ih (buildStep (convertFlatGridTo2D flat rows cols) rows cols ac dc
        bs a) (numStep (helperCellB flat cols) (m, n) a).1
      (numStep (helperCellB flat cols) (m, n) a).2
      (fun c hc => hmem c (by simp [hc])) hd1' hd2' hcur' hpt'
    exact this

theorem assignStep_sim (grid : List String) (width height : Nat)
    (st : AssignState) (yx : Nat × Nat)
    (m : List ((Nat × Nat) × Nat)) (n : Nat)
    (hcur : st.cur = n)
    (hpt : ∀ y x, jsMapGet st.cellNumbers (x, y) = jsMapGet m (y, x)) :
    (assignStep grid width height st yx).cur =
        (numStep (decoderCellB grid width height) (m, n) yx).2 ∧
      ∀ y x, jsMapGet (assignStep grid width height st yx).cellNumbers (x, y) =
        jsMapGet (numStep (decoderCellB grid width height) (m, n) yx).1
          (y, x) := by
  obtain ⟨y0, x0⟩ := yx
  unfold assignStep numStep decoderCellB
  by_cases hb : isBlackCell grid x0 y0 width = true
  · simp only [hb, if_true, Bool.not_true, Bool.false_and,
      Bool.false_eq_true, if_false]
    exact ⟨hcur, hpt⟩
  · rw [Bool.not_eq_true] at hb
    simp only [hb, Bool.false_eq_true, if_false, Bool.not_false, Bool.true_and]
    by_cases ha : cellNeedsAcrossNumber grid x0 y0 width = true <;>
      by_cases hd : cellNeedsDownNumber grid x0 y0 width height = true
    · simp only [ha, hd, if_true, Bool.or_self, Bool.true_or]
      refine ⟨by simp [hcur], ?_⟩
      intro y x
      rw [jsMapGet_set, jsMapGet_set, jsMapGet_set]
      by_cases hx : x = x0 <;> by_cases hy : y = y0 <;>
        simp [hx, hy, Prod.mk.injEq, hcur, hpt]
    · simp only [ha, hd, if_true, Bool.false_eq_true, if_false, Bool.or_false,
        Bool.true_or]
      refine ⟨by simp [hcur], ?_⟩
      intro y x
      rw [jsMapGet_set, jsMapGet_set]
      by_cases hx : x = x0 <;> by_cases hy : y = y0 <;>
        simp [hx, hy, Prod.mk.injEq, hcur, hpt]
    · simp only [ha, hd, if_true, Bool.false_eq_true, if_false, Bool.false_or,
        Bool.or_true]
      refine ⟨by simp [hcur], ?_⟩
      intro y x
      rw [jsMapGet_set, jsMapGet_set]
      by_cases hx : x = x0 <;> by_cases hy : y = y0 <;>
        simp [hx, hy, Prod.mk.injEq, hcur, hpt]
    · simp only [ha, hd, Bool.false_eq_true, if_false, Bool.or_self]
      exact ⟨hcur, hpt⟩

theorem assign_fold_sim (grid : List String) (width height : Nat) :
    ∀ (cells : List (Nat × Nat)) (st : AssignState)
      (m : List ((Nat × Nat) × Nat)) (n : Nat),
      st.cur = n →
      (∀ y x, jsMapGet st.cellNumbers (x, y) = jsMapGet m (y, x)) →
      (cells.foldl (assignStep grid width height) st).cur =
        (numberFold (decoderCellB grid width height) cells (m, n)).2 ∧
      ∀ y x, jsMapGet (cells.foldl (assignStep grid width height)
          st).cellNumbers (x, y) =
        jsMapGet (numberFold (decoderCellB grid width height) cells
          (m, n)).1 (y, x) := by
  intro cells
  induction cells with
  | nil =>
    intro st m n hcur hpt
    exact ⟨hcur, hpt⟩
  | cons a t ih =>
    intro st m n hcur hpt
    obtain ⟨hcur', hpt'⟩ := assignStep_sim grid width height st a m n hcur hpt
    unfold numberFold
    simp only [List.foldl_cons]
    exact ih (assignStep grid width height st a)
      (numStep (decoderCellB grid width height) (m, n) a).1
      (numStep (decoderCellB grid width height) (m, n) a).2 hcur' hpt'

theorem numAt_replicate_none (rows cols r c : Nat) :
    numAt (List.replicate rows (List.replicate cols (none : Option Nat))) r c =
      none := by
  unfold numAt
  rw [List.getElem?_replicate]
  by_cases hr : r < rows
  · rw [if_pos hr]
    simp only [Option.some_bind]
    rw [List.getElem?_replicate]
    by_cases hc : c < cols
    · rw [if_pos hc]
      rfl
    · rw [if_neg hc]
      rfl
  · rw [if_neg hr]
    rfl

/-- C1 (counterexample): on the spec's own 3×3 example grid the two
numberings disagree: the ClueIndexer numbers cell (0,1) — a top-boundary cell
whose down run has length 1 — with 2 and finishes its counter at 7, while the
`.puz` decoder's `assignClueNumbers` leaves that cell unnumbered and finishes
at 3.  The decoder does *not* reuse ClueIndexer's numbering algorithm. -/
theorem C1_counterexample :
    numAt catDogBuild.numbers 0 1 = some 2 ∧
      jsMapGet (assignClueNumbers catDogFlat 3 3).cellNumbers (1, 0) = none ∧
      catDogBuild.current = 7 ∧
      (assignClueNumbers catDogFlat 3 3).cur = 3 := by
  decide

/-- C1 (amended): the two numberings are extensionally equal — same numbered
cells, same numbers, identical final counter — exactly when every cell that
the ClueIndexer numbers (playable, at a left or top boundary) also starts an
across or down run of length ≥ 2; in general the decoder numbers only
≥2-run starts while the ClueIndexer numbers every boundary cell. -/
theorem C1_numbering_equiv (flat : List String) (rows cols : Nat)
    (hlen : flat.length = rows * cols) (ac dc : List String)
    (H : ∀ r < rows, ∀ c < cols, helperCellB flat cols (r, c) = true →
      decoderCellB flat cols rows (r, c) = true) :
    (buildClueMapAndNumberGrid (convertFlatGridTo2D flat rows cols) rows cols
        ac dc).current = (assignClueNumbers flat cols rows).cur ∧
      ∀ r c, numAt (buildClueMapAndNumberGrid (convertFlatGridTo2D flat rows
          cols) rows cols ac dc).numbers r c =
        jsMapGet (assignClueNumbers flat cols rows).cellNumbers (c, r) := by
  have hHcells : ∀ cell ∈ rowMajor rows cols,
      helperCellB flat cols cell = decoderCellB flat cols rows cell := by
    intro cell hcmem
    obtain ⟨h1, h2⟩ := mem_rowMajor hcmem
    by_cases hh : helperCellB flat cols cell = true
    · rw [hh]
      exact (H cell.1 h1 cell.2 h2 hh).symm
    · by_cases hd : decoderCellB flat cols rows cell = true
      · exact absurd (decoder_implies_helper flat rows cols cell hd) hh
      · rw [Bool.not_eq_true] at hh hd
        rw [hh, hd]
  have hinit_pt : ∀ r c,
      numAt (List.replicate rows (List.replicate cols (none : Option Nat)))
          r c =
        jsMapGet ([] : List ((Nat × Nat) × Nat)) (r, c) := by
    intro r c
    rw [numAt_replicate_none]
    rfl
  have hmem : ∀ cell ∈ rowMajor rows cols, cell.1 < rows ∧ cell.2 < cols :=
    fun cell hc => mem_rowMajor hc
  have hhelper := helper_fold_sim hlen ac dc (rowMajor rows cols)
    { numbers := List.replicate rows (List.replicate cols none)
      map := []
      current := 1 } [] 1 hmem (by simp) (by
        intro row hrow
        rw [List.eq_of_mem_replicate hrow]
        simp) rfl hinit_pt
  have hassign := assign_fold_sim flat cols rows (rowMajor rows cols)
    ⟨[], [], [], 1⟩ [] 1 rfl (by
      intro y x
      rfl)
  have hcongr := numberFold_congr (rowMajor rows cols) ([], 1) hHcells
  constructor
  · show (buildClueMapAndNumberGrid _ rows cols ac dc).current = _
    unfold buildClueMapAndNumberGrid
    unfold assignClueNumbers
    rw [hhelper.1, hassign.1, hcongr]
  · intro r c
    show numAt (buildClueMapAndNumberGrid _ rows cols ac dc).numbers r c = _
    unfold buildClueMapAndNumberGrid
    unfold assignClueNumbers
    rw [hhelper.2 r c, hassign.2 r c, hcongr]

/-- C1 (witness): on the full 2×2 grid every boundary cell starts a ≥2 run,
so the two numberings coincide; instantiated at cell (0,1). -/
theorem C1_witness :
    ((buildClueMapAndNumberGrid (convertFlatGridTo2D ["A", "B", "C", "D"] 2 2)
        2 2 [] []).current = (assignClueNumbers ["A", "B", "C", "D"] 2 2).cur) ∧
      ∀ r c, numAt (buildClueMapAndNumberGrid (convertFlatGridTo2D
          ["A", "B", "C", "D"] 2 2) 2 2 [] []).numbers r c =
        jsMapGet (assignClueNumbers ["A", "B", "C", "D"] 2 2).cellNumbers
          (c, r) :=
  C1_numbering_equiv ["A", "B", "C", "D"] 2 2 (by decide) [] [] (by decide)

/-! ## Claim C4 -/

/-- A 3×3 environment where the cursor can sit on a cell that belongs to no
across clue while direction is across: grid rows `AB.`, `A..`, `A..`. -/
def stallEnv : Env :=
  ⟨[["A", "B", "."], ["A", ".", "."], ["A", ".", "."]], 3, 3,
    (buildClueMapAndNumberGrid [["A", "B", "."], ["A", ".", "."],
      ["A", ".", "."]] 3 3 ["1. X"] ["1. Y"]).map,
    false, true, false⟩

def stallSession : Session :=
  ⟨[["", "", ""], ["", "", ""], ["", "", ""]], some (1, 0), Dir.across⟩

/-- C4 (counterexample): the across direction has a ClueEntry (`1-across`,
with empty cells), yet with the cursor at (1,0) — a cell of the down word
only — `goToNextClue` returns the state unchanged: `getCurrentClue` is null,
so the handler bails out and the cursor is *not* reassigned. -/
theorem C4_counterexample :
    ((mapValues stallEnv.clueMap).filter
        (fun c => c.direction == stallSession.direction)) ≠ [] ∧
      firstEmptyCellOf stallSession.userGrid
        ⟨1, "X", Dir.across, 0, 0, 2⟩ Dir.across = some (0, 0) ∧
      stallSession.selectedCell = some (1, 0) ∧
      goToNextClue stallEnv stallSession = .ok stallSession := by
  decide

theorem findIdx_pairwise {l : List ClueInfo} {i : Nat} {cur : ClueInfo}
    (hasc : l.Pairwise (fun a b => a.number < b.number))
    (hi : l[i]? = some cur) :
    l.findIdx? (fun c => c.number == cur.number) = some i := by
  induction l generalizing i with
  | nil => simp at hi
  | cons a t ih =>
    cases i with
    | zero =>
      simp only [List.getElem?_cons_zero, Option.some.injEq] at hi
      subst hi
      rw [List.findIdx?_cons]
      simp
    | succ j =>
      simp only [List.getElem?_cons_succ] at hi
      have hmem : cur ∈ t := List.getElem?_mem hi
      have halt : a.number < cur.number := (List.pairwise_cons.mp hasc).1 cur hmem
      rw [List.findIdx?_cons, if_neg (by simp only [beq_iff_eq]; omega),
        List.findIdx?_succ, ih (List.pairwise_cons.mp hasc).2 hi]
      rfl

theorem add_one_emod_toNat (i len : Nat) :
    (((i : Int) + 1) % (len : Int)).toNat = (i + 1) % len := by
  have h1 : ((i : Int) + 1) = ((i + 1 : Nat) : Int) := by push_cast; ring
  rw [h1, ← Int.natCast_mod, Int.toNat_natCast]

/-- The `goToNextClue` loop, characterized as a first-hit search over the
wrapped index sequence. -/
theorem nextClueScan_eq_findSome (ug : List (List String))
    (all : List ClueInfo) (dir : Dir) :
    ∀ fuel idx, idx < all.length →
      nextClueScan ug all dir idx fuel =
        ((List.range fuel).map (fun j => (idx + j) % all.length)).findSome?
          (fun k => match all[k]? with
            | some clue => firstEmptyCellOf ug clue dir
            | none => none) := by
  intro fuel
  induction fuel with
  | zero =>
    intro idx hidx
    simp [nextClueScan]
  | succ n ih =>
    intro idx hidx
    unfold nextClueScan
    rw [List.range_succ_eq_map, List.map_cons, List.findSome?_cons]
    have hidx0 : (idx + 0) % all.length = idx := by
      rw [Nat.add_zero, Nat.mod_eq_of_lt hidx]
    rw [hidx0]
    cases hget : all[idx]? with
    | none =>
      have hsome : all[idx]? = some all[idx] :=
        List.getElem?_eq_some.mpr ⟨hidx, rfl⟩
      rw [hget] at hsome
      cases hsome
    | some clue =>
      simp only [hget]
      cases hfe : firstEmptyCellOf ug clue dir with
      | some p => simp [hfe]
      | none =>
        simp only [hfe]
        rw [ih ((idx + 1) % all.length) (Nat.mod_lt _ (by omega))]
        congr 1
        rw [List.map_map]
        apply List.map_congr_left
        intro j hj
        simp only [Function.comp_apply]
        rw [Nat.mod_add_mod]
        congr 1
        omega

/-- The claim's forward clue-advance scan: from the index after the current
clue, wrapping through all clues of the direction, the first empty cell of
the first clue that has one. -/
def specAdvanceScan (ug : List (List String)) (all : List ClueInfo)
    (dir : Dir) (start : Nat) : Option (Nat × Nat) :=
  ((List.range all.length).map (fun j => (start + j) % all.length)).findSome?
    (fun k => match all[k]? with
      | some clue => firstEmptyCellOf ug clue dir
      | none => none)

/-- The claim's advance target at current index `i`: the scan result, or —
when every clue of the direction is filled — the first cell of the clue at
the immediately next index. -/
def specNextTarget (ug : List (List String)) (all : List ClueInfo) (dir : Dir)
    (i : Nat) : Option (Int × Int) :=
  match specAdvanceScan ug all dir ((i + 1) % all.length) with
  | some q => some ((q.1 : Int), (q.2 : Int))
  | none =>
    (all[(i + 1) % all.length]?).map
      (fun clue => ((clue.startRow : Int), (clue.startCol : Int)))

/-- C4 (amended): *provided the cursor lies inside some clue of the current
direction* (hypotheses `hsel`/`hcur`), and the direction's clue list is
ascending by number with the current clue at index `i`, `goToNextClue`
reassigns the cursor exactly as the claim describes and never stalls.
Without that proviso the handler returns the state unchanged (see the
counterexample). -/
theorem C4_clue_advance (env : Env) (s : Session) (p : Int × Int)
    (hsel : s.selectedCell = some p) (cur : ClueInfo)
    (hcur : findClueForCell env.clueMap p.1 p.2 s.direction = some cur)
    (hasc : ((mapValues env.clueMap).filter
      (fun c => c.direction == s.direction)).Pairwise
        (fun a b => a.number < b.number))
    (i : Nat)
    (hi : ((mapValues env.clueMap).filter
      (fun c => c.direction == s.direction))[i]? = some cur) :
    ∃ q, specNextTarget s.userGrid ((mapValues env.clueMap).filter
        (fun c => c.direction == s.direction)) s.direction i = some q ∧
      goToNextClue env s = .ok { s with selectedCell := some q } := by
  have hgc : getCurrentClue env s = some cur := by
    unfold getCurrentClue
    rw [hsel]
    simpa using hcur
  have hilen : i < ((mapValues env.clueMap).filter
      (fun c => c.direction == s.direction)).length := by
    rw [List.getElem?_eq_some] at hi
    exact hi.1
  have hne : ((mapValues env.clueMap).filter
      (fun c => c.direction == s.direction)).length ≠ 0 := by omega
  have hfind : jsFindIndex ((mapValues env.clueMap).filter
      (fun c => c.direction == s.direction))
      (fun c => c.number == cur.number) = (i : Int) := by
    unfold jsFindIndex
    rw [findIdx_pairwise hasc hi]
  unfold goToNextClue
  rw [hgc]
  dsimp only
  rw [if_neg hne, hfind, add_one_emod_toNat]
  have hmodlt : (i + 1) % ((mapValues env.clueMap).filter
      (fun c => c.direction == s.direction)).length <
      ((mapValues env.clueMap).filter
        (fun c => c.direction == s.direction)).length :=
    Nat.mod_lt _ (by omega)
  have hscan := nextClueScan_eq_findSome s.userGrid
    ((mapValues env.clueMap).filter (fun c => c.direction == s.direction))
    s.direction
    ((mapValues env.clueMap).filter
      (fun c => c.direction == s.direction)).length
    ((i + 1) % ((mapValues env.clueMap).filter
      (fun c => c.direction == s.direction)).length) hmodlt
  cases hsp : specAdvanceScan s.userGrid ((mapValues env.clueMap).filter
      (fun c => c.direction == s.direction)) s.direction
      ((i + 1) % ((mapValues env.clueMap).filter
        (fun c => c.direction == s.direction)).length) with
  | some q =>
    have hscan2 : nextClueScan s.userGrid ((mapValues env.clueMap).filter
        (fun c => c.direction == s.direction)) s.direction
        ((i + 1) % ((mapValues env.clueMap).filter
          (fun c => c.direction == s.direction)).length)
        ((mapValues env.clueMap).filter
          (fun c => c.direction == s.direction)).length = some q := by
      rw [hscan]
      exact hsp
    rw [hscan2]
    refine ⟨((q.1 : Int), (q.2 : Int)), ?_, rfl⟩
    unfold specNextTarget
    rw [hsp]
  | none =>
    have hscan2 : nextClueScan s.userGrid ((mapValues env.clueMap).filter
        (fun c => c.direction == s.direction)) s.direction
        ((i + 1) % ((mapValues env.clueMap).filter
          (fun c => c.direction == s.direction)).length)
        ((mapValues env.clueMap).filter
          (fun c => c.direction == s.direction)).length = none := by
      rw [hscan]
      exact hsp
    rw [hscan2]
    have hget : ((mapValues env.clueMap).filter
        (fun c => c.direction == s.direction))[(i + 1) %
          ((mapValues env.clueMap).filter
            (fun c => c.direction == s.direction)).length]? =
        some (((mapValues env.clueMap).filter
          (fun c => c.direction == s.direction)).get ⟨(i + 1) %
            ((mapValues env.clueMap).filter
              (fun c => c.direction == s.direction)).length, hmodlt⟩) :=
      List.getElem?_eq_some.mpr ⟨hmodlt, rfl⟩
    rw [hget]
    refine ⟨_, ?_, rfl⟩
    unfold specNextTarget
    rw [hsp, hget]
    rfl

/-- C4 (witness): on the `CAT` puzzle with the cursor at (0,0) in the across
word, the advance lands on the first empty cell computed by the claim's
scan. -/
theorem C4_witness :
    ∃ q, specNextTarget catSession2.userGrid
        ((mapValues catEnv.clueMap).filter
          (fun c => c.direction == catSession2.direction))
        catSession2.direction 0 = some q ∧
      goToNextClue catEnv catSession2 = .ok
        { catSession2 with selectedCell := some q } :=
  C4_clue_advance catEnv catSession2 (0, 0) (by decide)
    ⟨1, "Feline", Dir.across, 0, 0, 3⟩ (by decide) (by decide) 0 (by decide)

end Xword
